import Mathlib

/-
Verification development for the hierarchical task-routing engine of the
configurable_agents_langgraph repository.

Shallow embedding conventions:
- Python floats are modelled as exact rationals (the algorithms use only
  +, *, /, min, max on decimal literals).
- Python ints are modelled as Int (Nat where the source only ever adds
  non-negative quantities, such as keyword match scores).
- Python dicts keyed by agent id are modelled as association lists with
  unique-key lookup (first match) and in-place replacement, matching
  insertion-order iteration of dicts.
- Exceptions are modelled with Except: a .error value is a raised
  exception, carrying the message.
- The LLM / chat-model dependency is an opaque injected function, per the
  external-interface boundary; the prompt formatting that the source sends
  to it does not influence any routed behaviour and is elided.  The parsed
  JSON structure of an LLM reply is modelled directly since json parsing
  is a standard-library boundary.
- Wall-clock time measurements (datetime.now, time.time) are environmental
  inputs; elapsed times are passed as parameters, timestamps are elided.
-/

/-! ## Embedded definitions (from the source, plus sample and counterexample data) -/

/-- Case fold a string, modelling Python str.lower on the ASCII fragment
(written through the character list so that it reduces structurally). -/
def lowerStr (s : String) : String := String.mk (s.toList.map Char.toLower)

/-- Prefix test on character lists. -/
def isPrefixCL : List Char → List Char → Bool
  | [], _ => true
  | _ :: _, [] => false
  | a :: as, b :: bs => a == b && isPrefixCL as bs

/-- Substring test on character lists, modelling the Python `in` operator
on strings (an empty needle is contained in everything). -/
def containsCL (hay needle : List Char) : Bool :=
  match hay with
  | [] => needle.isEmpty
  | _ :: rest => isPrefixCL needle hay || containsCL rest needle

/-- Python `needle in hay` for strings. -/
def strContains (hay needle : String) : Bool := containsCL hay.toList needle.toList

/-- Word characters as matched by the regex token `\w` (ASCII fragment). -/
def isWordChar (c : Char) : Bool := c.isAlphanum || c == '_'

/-- Collect maximal runs of characters satisfying `p`; `cur` is the current
run being accumulated, in reverse. -/
def runsAux (p : Char → Bool) : List Char → List Char → List String
  | cur, [] => if cur.isEmpty then [] else [String.mk cur.reverse]
  | cur, c :: cs =>
    if p c then runsAux p (c :: cur) cs
    else if cur.isEmpty then runsAux p [] cs
    else String.mk cur.reverse :: runsAux p [] cs

/-- Model of the regex findall over the pattern of maximal word-character
runs used by the source tokenizer. -/
def findWordTokens (s : String) : List String := runsAux isWordChar [] s.toList

/-- Model of Python `str.split()` with no argument: maximal runs of
non-whitespace characters. -/
def splitWs (s : String) : List String :=
  runsAux (fun c => !c.isWhitespace) [] s.toList

/-- First occurrence of each element, in order: the key iteration order of a
Python dict built by repeated assignment over a list. -/
def firstOccs : List String → List String
  | [] => []
  | x :: xs => x :: (firstOccs xs).filter (fun y => y ≠ x)

/-- Python `max(iterable, key=score)`: the first element attaining the
maximal score (later elements must be strictly greater to displace). -/
def argmaxFirst {α : Type} (score : α → ℚ) : List α → Option α
  | [] => none
  | x :: xs =>
    match argmaxFirst score xs with
    | none => some x
    | some y => if score x < score y then some y else some x

/-- Insert into a descending-sorted list after all entries of greater or
equal key, preserving stability. -/
def insDesc {α : Type} (key : α → ℚ) (x : α) : List α → List α
  | [] => [x]
  | y :: ys => if key y < key x then x :: y :: ys else y :: insDesc key x ys

/-- Stable descending sort, modelling Python `sorted(l, key=key, reverse=True)`
and `l.sort(key=key, reverse=True)` (both stable). -/
def sortByDesc {α : Type} (key : α → ℚ) (l : List α) : List α :=
  l.foldl (fun acc x => insDesc key x acc) []

/-- Python truthiness of an optional string (None and the empty string are
falsy). -/
def pyTruthy : Option String → Bool
  | none => false
  | some s => !s.isEmpty

/-- Available routing strategies (enum RoutingStrategy). -/
inductive RoutingStrategy where
  | keyword_based
  | llm_based
  | rule_based
  | hybrid
  | capability_based
  | workload_based
  | performance_based
deriving DecidableEq, Repr

/-- Capabilities and current state of one agent (dataclass AgentCapability),
with the dataclass field defaults. -/
structure AgentCapability where
  agent_id : String
  capabilities : List String
  current_workload : Int := 0
  max_workload : Int := 10
  average_response_time : ℚ := 0
  success_rate : ℚ := 1
  specialization_keywords : List String := []
  priority : Int := 1
deriving DecidableEq, Repr

instance : Inhabited AgentCapability :=
  ⟨{ agent_id := "", capabilities := [] }⟩

/-- Derived availability (property AgentCapability.availability). -/
def AgentCapability.availability (a : AgentCapability) : ℚ :=
  if a.max_workload = 0 then 0
  else max 0 (1 - (a.current_workload : ℚ) / (a.max_workload : ℚ))

/-- Derived overall performance score (property
AgentCapability.performance_score). -/
def AgentCapability.performance_score (a : AgentCapability) : ℚ :=
  let time_score := max 0 (1 - a.average_response_time / 60)
  a.success_rate * 0.5 + time_score * 0.2 + a.availability * 0.3

/-- A routing decision (dataclass RoutingDecision); the opaque metadata map
and the wall-clock timestamp are elided. -/
structure RoutingDecision where
  target : String
  confidence : ℚ
  reasoning : String
  strategy_used : RoutingStrategy
  alternative_targets : List (String × ℚ) := []
deriving DecidableEq, Repr

/-- The registry dict self.agent_capabilities, keyed by agent id. -/
abbrev Registry := List (String × AgentCapability)

/-- Dict lookup: first entry with the given key. -/
def lookupAgent (reg : Registry) (id : String) : Option AgentCapability :=
  match reg with
  | [] => none
  | (k, v) :: rest => if k = id then some v else lookupAgent rest id

/-- Replace the value stored under a key, leaving the registry unchanged if
the key is absent. -/
def setAgent (reg : Registry) (id : String) (f : AgentCapability → AgentCapability) :
    Registry :=
  match reg with
  | [] => []
  | (k, v) :: rest => if k = id then (k, f v) :: rest else (k, v) :: setAgent rest id f

/-- Dict assignment `d[id] = a`: replace in place if present, else append. -/
def registryInsert (reg : Registry) (a : AgentCapability) : Registry :=
  if (lookupAgent reg a.agent_id).isSome then setAgent reg a.agent_id (fun _ => a)
  else reg ++ [(a.agent_id, a)]

/-- Registry read with the dataclass-default record; every embedded call
path resolves only ids previously filtered to be registered (route_task
filters its candidate list), so the default is never reached from the
engine entry points.  In the source an unregistered id would raise KeyError
inside a strategy, which the engine catches in its fallback path. -/
def getAgentD (reg : Registry) (id : String) : AgentCapability :=
  (lookupAgent reg id).getD default

/-- Outcome of one call to the injected chat model inside _llm_based_routing,
after the json-parsing step of the source:
- failure: llm.invoke raised (network or model error);
- unparsed: a reply whose text failed json parsing, carrying the raw text;
- parsed: a json object reply, carrying the raw text and the extracted
  chosen_agent, confidence, reasoning and alternatives fields. -/
inductive LLMReply where
  | failure (msg : String)
  | unparsed (text : String)
  | parsed (raw : String) (chosen : String) (confidence : ℚ) (reasoning : String)
      (alternatives : List String)

/-- The injected decision oracle, consuming the task description (the prompt
formatting around it is elided; it does not influence routing behaviour). -/
abbrev LLMOracle := String → LLMReply

/-- Engine state (class EnhancedRoutingEngine): injected llm, default
strategy, the capability registry, the decision history, and the lazily
created round-robin fallback index (absent attribute modelled as 0, its
first-use initial value). -/
structure EnhancedRoutingEngine where
  llm : Option LLMOracle
  default_strategy : RoutingStrategy := .hybrid
  agent_capabilities : Registry := []
  routing_history : List RoutingDecision := []
  round_robin_index : Nat := 0

/-- EnhancedRoutingEngine.register_agent. -/
def EnhancedRoutingEngine.register_agent (eng : EnhancedRoutingEngine)
    (a : AgentCapability) : EnhancedRoutingEngine :=
  { eng with agent_capabilities := registryInsert eng.agent_capabilities a }

/-- EnhancedRoutingEngine.update_agent_workload: add the change, then clamp
at zero; a no-op when the id is not registered. -/
def EnhancedRoutingEngine.update_agent_workload (eng : EnhancedRoutingEngine)
    (agent_id : String) (workload_change : Int) : EnhancedRoutingEngine :=
  if (lookupAgent eng.agent_capabilities agent_id).isSome then
    { eng with agent_capabilities :=
        setAgent eng.agent_capabilities agent_id (fun a =>
          { a with current_workload := max 0 (a.current_workload + workload_change) }) }
  else eng

/-- EnhancedRoutingEngine.update_agent_performance: exponential smoothing of
the response time, exponential success-rate update, then clamp the rate to
[0.1, 1.0]; an early return when the id is not registered. -/
def EnhancedRoutingEngine.update_agent_performance (eng : EnhancedRoutingEngine)
    (agent_id : String) (response_time : ℚ) (success : Bool) : EnhancedRoutingEngine :=
  match lookupAgent eng.agent_capabilities agent_id with
  | none => eng
  | some _ =>
    { eng with agent_capabilities :=
        setAgent eng.agent_capabilities agent_id (fun a =>
          let art := if a.average_response_time = 0 then response_time
                     else a.average_response_time * 0.8 + response_time * 0.2
          let sr := if success then a.success_rate * 0.9 + 0.1 else a.success_rate * 0.9
          { a with average_response_time := art,
                   success_rate := max 0.1 (min 1 sr) }) }

/-- The optional routing context dict, restricted to the two keys the
strategies read (rule predicates read context.get of priority and
complexity; all other keys are ignored by every strategy). -/
structure Context where
  priority : Option String := none
  complexity : Option String := none

/-- The fixed keyword-to-category table (_build_default_keyword_mappings). -/
def keywordMappings : List (String × List String) :=
  [ ("web_search", ["search", "find", "lookup", "web", "internet", "browse", "website"]),
    ("research", ["research", "analyze", "investigate", "study", "examine", "explore"]),
    ("writing", ["write", "compose", "create", "draft", "document", "article", "content"]),
    ("coding", ["code", "program", "develop", "implement", "debug", "script", "function"]),
    ("support", ["help", "assist", "support", "troubleshoot", "fix", "resolve", "issue"]),
    ("analysis", ["analyze", "examine", "evaluate", "assess", "review", "check"]),
    ("data", ["data", "statistics", "numbers", "metrics", "chart", "graph"]) ]

/-- Per-agent score of _keyword_based_routing: 2 per capability contained in
the lowered task, 3 per specialization keyword contained, 1 per table
keyword hit for each category present among the lowered capabilities. -/
def keywordScore (reg : Registry) (taskLower : String) (id : String) : Nat :=
  let a := getAgentD reg id
  2 * (a.capabilities.filter (fun c => strContains taskLower (lowerStr c))).length
    + 3 * (a.specialization_keywords.filter (fun k => strContains taskLower (lowerStr k))).length
    + (keywordMappings.map (fun p =>
        if (a.capabilities.map lowerStr).contains p.1 then
          (p.2.filter (fun kw => strContains taskLower kw)).length
        else 0)).sum

/-- EnhancedRoutingEngine._keyword_based_routing. -/
def keyword_based_routing (reg : Registry) (task : String) (agents : List String) :
    Except String RoutingDecision :=
  let taskLower := lowerStr task
  let keys := firstOccs agents
  let score := fun id => keywordScore reg taskLower id
  match argmaxFirst (fun id => ((score id : ℚ))) keys with
  | none => .error "max() arg is an empty sequence"
  | some best =>
    let maxScore := score best
    let values : List Nat := keys.map score
    let sortedValues : List Nat := sortByDesc (fun v => ((v : ℚ))) values
    let secondBest : Nat := if 1 < keys.length then sortedValues.getD 1 0 else 0
    let confidence := min 0.9 ((maxScore : ℚ) / ((max 1 (maxScore + secondBest) : Nat) : ℚ))
    let items := keys.map (fun id => (id, score id))
    let alts := ((sortByDesc (fun p => ((p.2 : ℚ))) items).drop 1).take 2
    .ok { target := best,
          confidence := confidence,
          reasoning := "Keyword matching: " ++ toString maxScore ++ " points for " ++ best,
          strategy_used := .keyword_based,
          alternative_targets := alts.map (fun p => (p.1, ((p.2 : ℚ)))) }

/-- EnhancedRoutingEngine._extract_agent_from_text: first candidate whose
lowered id occurs in the lowered text, else the first candidate (the source
indexes agents[0]; every call site passes a non-empty list). -/
def extract_agent_from_text (text : String) (agents : List String) : String :=
  match agents.find? (fun a => strContains (lowerStr text) (lowerStr a)) with
  | some a => a
  | none => agents.headD ""

/-- EnhancedRoutingEngine._llm_based_routing.  The parsed confidence is
returned as extracted from the reply, without clamping. -/
def llm_based_routing (llm : Option LLMOracle) (task : String) (agents : List String) :
    Except String RoutingDecision :=
  match llm with
  | none => .error "LLM not available for LLM-based routing"
  | some oracle =>
    match oracle task with
    | .failure msg => .error msg
    | .unparsed text =>
      .ok { target := extract_agent_from_text text agents,
            confidence := 0.6,
            reasoning := "LLM analysis: " ++ String.mk (text.toList.take 200) ++ "...",
            strategy_used := .llm_based }
    | .parsed raw chosen conf reasoning alternatives =>
      if agents.contains chosen then
        .ok { target := chosen,
              confidence := conf,
              reasoning := reasoning,
              strategy_used := .llm_based,
              alternative_targets := (alternatives.take 2).map (fun alt => (alt, 0.5)) }
      else
        .ok { target := extract_agent_from_text raw agents,
              confidence := 0.6,
              reasoning := "LLM analysis: " ++ String.mk (raw.toList.take 200) ++ "...",
              strategy_used := .llm_based }

/-- EnhancedRoutingEngine._rule_based_routing with the default rule list
(_build_default_rules): first rule whose condition holds and that has a
candidate passing its filter wins; otherwise the first candidate with
confidence 0.3. -/
def rule_based_routing (reg : Registry) (task : String) (agents : List String)
    (context : Context) : Except String RoutingDecision :=
  let taskLower := lowerStr task
  let mk := fun (id : String) (conf : ℚ) (why : String) =>
    ({ target := id, confidence := conf, reasoning := why,
       strategy_used := .rule_based } : RoutingDecision)
  let r1 :=
    if context.priority == some "high" || strContains taskLower "urgent" then
      agents.find? (fun id => decide ((getAgentD reg id).performance_score > 0.8))
    else none
  match r1 with
  | some id => .ok (mk id 0.9 "High priority task routed to high-performance agent")
  | none =>
    let r2 :=
      if (splitWs taskLower).length < 10 then
        agents.find? (fun id => decide ((getAgentD reg id).availability > 0.7))
      else none
    match r2 with
    | some id => .ok (mk id 0.7 "Simple task routed to available agent")
    | none =>
      let r3 :=
        if 50 < (splitWs taskLower).length || context.complexity == some "high" then
          agents.find? (fun id =>
            decide ((getAgentD reg id).performance_score > 0.7) &&
              decide (3 < (getAgentD reg id).capabilities.length))
        else none
      match r3 with
      | some id => .ok (mk id 0.85 "Complex task routed to expert agent")
      | none =>
        match agents with
        | [] => .error "list index out of range"
        | a :: _ => .ok (mk a 0.3 "No rules matched, using first available agent")

/-- The stop-word set of _extract_task_keywords. -/
def stopWords : List String :=
  ["the", "a", "an", "and", "or", "but", "in", "on", "at", "to", "for", "of",
   "with", "by", "is", "are", "was", "were", "be", "been", "have", "has", "had",
   "do", "does", "did", "will", "would", "could", "should", "may", "might",
   "can", "this", "that", "these", "those"]

/-- EnhancedRoutingEngine._extract_task_keywords: tokenize the lowered task,
drop stop words and tokens of length at most 2, keep the first 10. -/
def extract_task_keywords (task : String) : List String :=
  (((findWordTokens (lowerStr task)).filter
      (fun w => 2 < w.length && !(stopWords.contains w))).take 10)

/-- Per-agent score of _capability_based_routing: 5 per task keyword equal to
a lowered capability tag, 3 per specialization keyword contained in the
lowered task, plus the priority. -/
def capabilityScore (reg : Registry) (task : String) (keywords : List String)
    (id : String) : Int :=
  let a := getAgentD reg id
  5 * ((keywords.filter (fun k => (a.capabilities.map lowerStr).contains k)).length : Int)
    + 3 * ((a.specialization_keywords.filter
        (fun s => strContains (lowerStr task) (lowerStr s))).length : Int)
    + a.priority

/-- EnhancedRoutingEngine._capability_based_routing.  The explicit zero test
on the denominator models the ZeroDivisionError the source would raise at
maxScore = -3 (possible only with negative priorities). -/
def capability_based_routing (reg : Registry) (task : String) (agents : List String) :
    Except String RoutingDecision :=
  let keywords := extract_task_keywords task
  let keys := firstOccs agents
  let score := fun id => capabilityScore reg task keywords id
  match argmaxFirst (fun id => ((score id : ℚ))) keys with
  | none => .error "max() arg is an empty sequence"
  | some best =>
    let maxScore := score best
    if (maxScore : ℚ) + 3 = 0 then .error "division by zero"
    else
      .ok { target := best,
            confidence := min 0.95 ((maxScore : ℚ) / ((maxScore : ℚ) + 3)),
            reasoning := "Best capability match with score " ++ toString maxScore,
            strategy_used := .capability_based }

/-- EnhancedRoutingEngine._workload_based_routing: stable-sort by
availability descending, take the head; confidence is availability * 0.8. -/
def workload_based_routing (reg : Registry) (agents : List String) :
    Except String RoutingDecision :=
  let available := agents.map (fun id => (id, (getAgentD reg id).availability))
  match sortByDesc (fun p => p.2) available with
  | [] => .error "list index out of range"
  | (best, avail) :: rest =>
    .ok { target := best,
          confidence := avail * 0.8,
          reasoning := "Best availability",
          strategy_used := .workload_based,
          alternative_targets := rest.take 2 }

/-- EnhancedRoutingEngine._performance_based_routing: stable-sort by
performance score descending, take the head; confidence is score * 0.9. -/
def performance_based_routing (reg : Registry) (agents : List String) :
    Except String RoutingDecision :=
  let perf := agents.map (fun id => (id, (getAgentD reg id).performance_score))
  match sortByDesc (fun p => p.2) perf with
  | [] => .error "list index out of range"
  | (best, p) :: rest =>
    .ok { target := best,
          confidence := p * 0.9,
          reasoning := "Best performance score",
          strategy_used := .performance_based,
          alternative_targets := rest.take 2 }

/-- Contribution of one sub-strategy outcome to a candidate in
_hybrid_routing: full confidence times weight for the sub-target, else the
first matching alternative contributes its score / 10 times weight times
0.5, else nothing; a failed sub-strategy contributes nothing (the source
skips it and its weight is not renormalized). -/
def hybridContribution (id : String) (weight : ℚ)
    (d : Except String RoutingDecision) : ℚ :=
  match d with
  | .error _ => 0
  | .ok dec =>
    if dec.target = id then dec.confidence * weight
    else
      match dec.alternative_targets.find? (fun p => p.1 = id) with
      | some p => p.2 / 10 * weight * 0.5
      | none => 0

/-- The weighted score a candidate receives in _hybrid_routing, combining
capability (0.4), performance (0.3), workload (0.2) and keyword (0.1). -/
def hybridWeightedScore (reg : Registry) (task : String) (agents : List String)
    (id : String) : ℚ :=
  hybridContribution id 0.4 (capability_based_routing reg task agents)
    + hybridContribution id 0.3 (performance_based_routing reg agents)
    + hybridContribution id 0.2 (workload_based_routing reg agents)
    + hybridContribution id 0.1 (keyword_based_routing reg task agents)

/-- EnhancedRoutingEngine._hybrid_routing. -/
def hybrid_routing (reg : Registry) (task : String) (agents : List String) :
    Except String RoutingDecision :=
  let keys := firstOccs agents
  match argmaxFirst (hybridWeightedScore reg task agents) keys with
  | none => .error "max() arg is an empty sequence"
  | some best =>
    .ok { target := best,
          confidence := min 0.95 (hybridWeightedScore reg task agents best),
          reasoning := "Hybrid decision combining strategies",
          strategy_used := .hybrid }

/-- The two ValueError cases route_task raises before dispatching: an empty
candidate list, and a candidate list with no registered member. -/
inductive RouteError where
  | noCandidates
  | noRegisteredCandidates
deriving DecidableEq, Repr

/-- The ValueError messages of the source for the two route_task errors. -/
def RouteError.message : RouteError → String
  | .noCandidates => "No available agents for routing"
  | .noRegisteredCandidates => "No valid registered agents available for routing"

/-- Dispatch to the selected strategy (the if/elif chain of route_task). -/
def dispatchStrategy (eng : EnhancedRoutingEngine) (strategy : RoutingStrategy)
    (task : String) (agents : List String) (context : Context) :
    Except String RoutingDecision :=
  match strategy with
  | .keyword_based => keyword_based_routing eng.agent_capabilities task agents
  | .llm_based => llm_based_routing eng.llm task agents
  | .rule_based => rule_based_routing eng.agent_capabilities task agents context
  | .capability_based => capability_based_routing eng.agent_capabilities task agents
  | .workload_based => workload_based_routing eng.agent_capabilities agents
  | .performance_based => performance_based_routing eng.agent_capabilities agents
  | .hybrid => hybrid_routing eng.agent_capabilities task agents

/-- EnhancedRoutingEngine.route_task: raise on an empty candidate list;
filter to registered candidates and raise if none remain; dispatch to the
strategy, substituting the round-robin fallback decision on any strategy
error; append the decision to the history and return it. -/
def EnhancedRoutingEngine.route_task (eng : EnhancedRoutingEngine) (task : String)
    (available_agents : List String) (strategy : Option RoutingStrategy)
    (context : Context) : Except RouteError (RoutingDecision × EnhancedRoutingEngine) :=
  if available_agents.isEmpty then .error .noCandidates
  else
    let strat := strategy.getD eng.default_strategy
    let valid := available_agents.filter
      (fun id => (lookupAgent eng.agent_capabilities id).isSome)
    if valid.isEmpty then .error .noRegisteredCandidates
    else
      match dispatchStrategy eng strat task valid context with
      | .ok d =>
        .ok (d, { eng with routing_history := eng.routing_history ++ [d] })
      | .error e =>
        let d : RoutingDecision :=
          { target := valid.getD (eng.round_robin_index % valid.length) "",
            confidence := 0.3,
            reasoning := "Fallback routing due to error: " ++ e,
            strategy_used := strat }
        .ok (d, { eng with
                    round_robin_index := eng.round_robin_index + 1,
                    routing_history := eng.routing_history ++ [d] })

/-- The result dict a worker run returns, restricted to the two keys read by
its callers: response and error. -/
structure WorkerResult where
  response : Option String := none
  error : Option String := none

/-- A worker agent; run is an opaque capability (Worker.Run in the spec), a
raised exception being an .error outcome.  kwargs forwarding is elided. -/
structure WorkerAgent where
  name : String
  description : String := ""
  behavior : String → Except String WorkerResult

/-- Outcome of one llm.invoke call of the supervisor or coordinator decision
prompt: a raised exception or the reply text. -/
inductive ChatReply where
  | failure (msg : String)
  | reply (content : String)

/-- The injected chat model of supervisor.py and team_coordinator.py,
consuming the user request (prompt formatting elided). -/
abbrev ChatOracle := String → ChatReply

/-- Decision record of supervisor.py (SupervisorDecision). -/
structure SupervisorDecision where
  next_worker : String
  reasoning : String
  task_description : String
deriving DecidableEq, Repr

/-- State of the plain SupervisorAgent (supervisor.py): name, workers, and
the optional chat model.  System-prompt bookkeeping is elided (it only
feeds the prompt sent to the chat model). -/
structure SupervisorAgent where
  name : String
  workers : List WorkerAgent
  llm : Option ChatOracle

/-- The keyword table of SupervisorAgent._choose_worker_by_keywords. -/
def supervisorKeywordMappings : List (String × List String) :=
  [ ("research", ["research", "search", "find", "information", "web", "lookup"]),
    ("coding", ["code", "program", "develop", "debug", "python", "function", "script"]),
    ("support", ["help", "support", "customer", "issue", "problem", "assist"]),
    ("writing", ["write", "document", "report", "content", "article", "text"]),
    ("analysis", ["analyze", "analyze", "data", "chart", "graph", "statistics"]) ]

/-- Score of one worker name in _choose_worker_by_keywords: for each category
contained in the lowered name, 1 per table keyword occurring in the lowered
input or the lowered reasoning.  (The analysis row repeats a keyword, as in
the source, so a hit there counts twice.) -/
def workerNameScore (mappings : List (String × List String))
    (name inputLower reasoningLower : String) : Nat :=
  (mappings.map (fun p =>
    if strContains (lowerStr name) p.1 then
      (p.2.filter (fun kw =>
        strContains inputLower kw || strContains reasoningLower kw)).length
    else 0)).sum

/-- SupervisorAgent._choose_worker_by_keywords: highest-scoring worker name,
or the first worker when no keyword matched. -/
def SupervisorAgent.choose_worker_by_keywords (sup : SupervisorAgent)
    (input reasoning : String) : String :=
  match sup.workers with
  | [] => "none"
  | w0 :: _ =>
    let il := lowerStr input
    let rl := lowerStr reasoning
    let names := firstOccs (sup.workers.map (fun w => w.name))
    match argmaxFirst
        (fun n => ((workerNameScore supervisorKeywordMappings n il rl : ℚ))) names with
    | none => "none"
    | some best =>
      if 0 < workerNameScore supervisorKeywordMappings best il rl then best
      else w0.name

/-- SupervisorAgent.decide_worker: raise without an llm or without workers;
otherwise ask the chat model, catching any error with a first-worker
fallback decision. -/
def SupervisorAgent.decide_worker (sup : SupervisorAgent) (input_text : String) :
    Except String SupervisorDecision :=
  match sup.llm with
  | none => .error "No LLM configured for supervisor agent"
  | some oracle =>
    match sup.workers with
    | [] => .error "No workers available for supervisor to delegate to"
    | w0 :: _ =>
      match oracle input_text with
      | .failure msg =>
        .ok { next_worker := w0.name,
              reasoning := "Error in decision making: " ++ msg ++ ". Using fallback worker.",
              task_description := input_text }
      | .reply content =>
        .ok { next_worker := sup.choose_worker_by_keywords input_text content,
              reasoning := content,
              task_description := input_text }

/-- SupervisorAgent.get_worker: first worker with the given name. -/
def SupervisorAgent.get_worker (sup : SupervisorAgent) (worker_name : String) :
    Option WorkerAgent :=
  sup.workers.find? (fun w => w.name == worker_name)

/-- The result dict of a team (supervisor) run, restricted to the keys its
callers read: error and response.  The success path of the source sets no
error key, modelled as error = none. -/
structure TeamResult where
  error : Option String := none
  response : String := ""

/-- SupervisorAgent.run: decide (exceptions propagate), dispatch (an unknown
worker yields a structured error result), execute the worker (worker
exceptions propagate: the plain supervisor has no try around worker.run). -/
def SupervisorAgent.run (sup : SupervisorAgent) (input_text : String) :
    Except String TeamResult :=
  match sup.decide_worker input_text with
  | .error e => .error e
  | .ok decision =>
    match sup.get_worker decision.next_worker with
    | none =>
      .ok { error := some ("Worker " ++ decision.next_worker ++ " not found"),
            response := "Error: Worker " ++ decision.next_worker ++ " is not available" }
    | some w =>
      match w.behavior input_text with
      | .error e => .error e
      | .ok wres =>
        .ok { error := none,
              response := wres.response.getD "No response from worker" }

/-- Decision record of team_coordinator.py (TeamDecision). -/
structure TeamDecision where
  next_team : String
  reasoning : String
  task_description : String
deriving DecidableEq, Repr

/-- State of the TeamCoordinator: optional chat model, the team dict and the
separately maintained team-name list of the source. -/
structure TeamCoordinator where
  name : String
  llm : Option ChatOracle
  teams : List (String × SupervisorAgent)
  team_names : List String

/-- The keyword table of TeamCoordinator._choose_team_by_keywords (the
analysis row repeats a keyword, as in the source). -/
def coordinatorKeywordMappings : List (String × List String) :=
  [ ("research", ["research", "search", "find", "information", "web", "lookup", "investigate"]),
    ("development", ["code", "program", "develop", "debug", "python", "function", "script", "build"]),
    ("support", ["help", "support", "customer", "issue", "problem", "assist", "troubleshoot"]),
    ("writing", ["write", "document", "report", "content", "article", "text", "create"]),
    ("analysis", ["analyze", "analyze", "data", "chart", "graph", "statistics", "examine"]) ]

/-- TeamCoordinator._choose_team_by_keywords.  The .error outcome models the
IndexError the source raises on team_names[0] when the name list is empty
while the team dict is not; the caller runs it inside a try block. -/
def TeamCoordinator.choose_team_by_keywords (c : TeamCoordinator)
    (input reasoning : String) : Except String String :=
  let il := lowerStr input
  let rl := lowerStr reasoning
  let keys := firstOccs (c.teams.map (fun p => p.1))
  match argmaxFirst
      (fun n => ((workerNameScore coordinatorKeywordMappings n il rl : ℚ))) keys with
  | none =>
    match c.team_names with
    | [] => .ok "none"
    | t :: _ => .ok t
  | some best =>
    if 0 < workerNameScore coordinatorKeywordMappings best il rl then .ok best
    else
      match c.team_names with
      | [] => .error "list index out of range"
      | t :: _ => .ok t

/-- The fallback TeamDecision of the except branch of decide_team. -/
def TeamCoordinator.fallbackDecision (c : TeamCoordinator) (input_text msg : String) :
    TeamDecision :=
  { next_team := c.team_names.headD "none",
    reasoning := "Error in decision making: " ++ msg ++ ". Using fallback team.",
    task_description := input_text }

/-- TeamCoordinator.decide_team: raise without an llm or without teams;
otherwise ask the chat model and pick a team by keywords, any error inside
the try block being caught with a first-team fallback decision. -/
def TeamCoordinator.decide_team (c : TeamCoordinator) (input_text : String) :
    Except String TeamDecision :=
  match c.llm with
  | none => .error "No LLM configured for team coordinator"
  | some oracle =>
    if c.teams.isEmpty then .error "No teams available for coordinator to delegate to"
    else
      match oracle input_text with
      | .failure msg => .ok (c.fallbackDecision input_text msg)
      | .reply content =>
        match c.choose_team_by_keywords input_text content with
        | .ok choice =>
          .ok { next_team := choice, reasoning := content, task_description := input_text }
        | .error e => .ok (c.fallbackDecision input_text e)

/-- TeamCoordinator.get_team: dict lookup. -/
def TeamCoordinator.get_team (c : TeamCoordinator) (team_name : String) :
    Option SupervisorAgent :=
  match c.teams.find? (fun p => p.1 == team_name) with
  | some p => some p.2
  | none => none

/-- The result dict of a coordinator run, restricted to the keys its caller
reads. -/
structure CoordResult where
  error : Option String := none
  response : String := ""
  team_used : Option String := none

/-- TeamCoordinator.run: decide (exceptions propagate), dispatch (an unknown
team yields a structured error result), run the team (exceptions
propagate). -/
def TeamCoordinator.run (c : TeamCoordinator) (input_text : String) :
    Except String CoordResult :=
  match c.decide_team input_text with
  | .error e => .error e
  | .ok decision =>
    match c.get_team decision.next_team with
    | none =>
      .ok { error := some ("Team " ++ decision.next_team ++ " not found"),
            response := "Error: Team " ++ decision.next_team ++ " is not available" }
    | some team =>
      match team.run input_text with
      | .error e => .error e
      | .ok tres =>
        .ok { error := none,
              response := tres.response,
              team_used := some decision.next_team }

/-- State of HierarchicalAgentTeam: the optional coordinator, the team dict
and the flattened worker dict. -/
structure HierarchicalAgentTeam where
  name : String
  coordinator : Option TeamCoordinator
  teams : List (String × SupervisorAgent)
  workers : List (String × WorkerAgent)

/-- A coordinator result with the hierarchical-team metadata attached by
HierarchicalAgentTeam.run. -/
structure HierResult where
  base : CoordResult
  total_teams : Nat
  total_workers : Nat

/-- HierarchicalAgentTeam.run: raise ValueError without a coordinator or
without teams, else forward to the coordinator and attach metadata. -/
def HierarchicalAgentTeam.run (t : HierarchicalAgentTeam) (input_text : String) :
    Except String HierResult :=
  match t.coordinator with
  | none => .error "No coordinator configured"
  | some c =>
    if t.teams.isEmpty then .error "No teams available"
    else
      (c.run input_text).map (fun r =>
        { base := r, total_teams := t.teams.length, total_workers := t.workers.length })

/-- Decision record of enhanced_supervisor.py (EnhancedSupervisorDecision);
the metadata dict is elided and the strategy value string is modelled by
the enum value itself. -/
structure EnhancedSupervisorDecision where
  next_worker : String
  reasoning : String
  confidence : ℚ
  task_description : String
  alternative_workers : List String := []
  strategy_used : RoutingStrategy

/-- One entry of the supervisor task-history list (timestamp elided). -/
structure TaskRecord where
  input : String
  worker_used : String
  response_time : ℚ
  success : Bool
  confidence : ℚ
  strategy : RoutingStrategy

/-- State of EnhancedSupervisorAgent: workers, the default routing strategy,
the owned routing engine, and the history lists. -/
structure EnhancedSupervisorAgent where
  name : String
  workers : List WorkerAgent
  routing_strategy : RoutingStrategy := .hybrid
  routing_engine : EnhancedRoutingEngine
  task_history : List TaskRecord := []
  decision_history : List EnhancedSupervisorDecision := []

/-- EnhancedSupervisorAgent.decide_worker: raise without workers, then ask
the routing engine over the worker names with the selected strategy (a
route_task ValueError propagates); wrap and record the decision.  The
context keys the source adds here (supervisor name, timestamp, counts) are
read by no strategy and are elided. -/
def EnhancedSupervisorAgent.decide_worker (sup : EnhancedSupervisorAgent)
    (input_text : String) (context : Context) (strategy : Option RoutingStrategy) :
    Except String (EnhancedSupervisorDecision × EnhancedSupervisorAgent) :=
  if sup.workers.isEmpty then .error "No workers available for supervisor to delegate to"
  else
    let strat := strategy.getD sup.routing_strategy
    match sup.routing_engine.route_task input_text
        (sup.workers.map (fun w => w.name)) (some strat) context with
    | .error e => .error e.message
    | .ok (rd, eng') =>
      let d : EnhancedSupervisorDecision :=
        { next_worker := rd.target,
          confidence := rd.confidence,
          reasoning := rd.reasoning,
          task_description := input_text,
          alternative_workers := rd.alternative_targets.map (fun p => p.1),
          strategy_used := rd.strategy_used }
      .ok (d, { sup with routing_engine := eng',
                         decision_history := sup.decision_history ++ [d] })

/-- EnhancedSupervisorAgent.get_worker: first worker with the given name. -/
def EnhancedSupervisorAgent.get_worker (sup : EnhancedSupervisorAgent)
    (worker_name : String) : Option WorkerAgent :=
  sup.workers.find? (fun w => w.name == worker_name)

/-- The result dict of an enhanced supervisor run, restricted to the keys
the claims and callers read. -/
structure SupRunResult where
  error : Option String := none
  response : String := ""
  worker_used : Option String := none

/-- EnhancedSupervisorAgent.run: decide, dispatch (an unknown worker yields
a structured error result with no workload mutation), execute with the
workload incremented, record performance and history, and decrement the
workload in the finally block on both the success and the exception path.
The elapsed wall-clock time is an environmental input. -/
def EnhancedSupervisorAgent.run (sup : EnhancedSupervisorAgent) (input_text : String)
    (priority complexity : String) (elapsed : ℚ) :
    Except String (SupRunResult × EnhancedSupervisorAgent) :=
  let context : Context := { priority := some priority, complexity := some complexity }
  match sup.decide_worker input_text context none with
  | .error e => .error e
  | .ok (decision, sup1) =>
    match sup1.get_worker decision.next_worker with
    | none =>
      .ok ({ error := some ("Worker " ++ decision.next_worker ++ " not found"),
             response := "Error: Worker " ++ decision.next_worker ++ " is not available" },
           sup1)
    | some w =>
      let eng1 := sup1.routing_engine.update_agent_workload decision.next_worker 1
      match w.behavior input_text with
      | .ok wres =>
        let success := !(pyTruthy wres.error)
        let eng2 := eng1.update_agent_performance decision.next_worker elapsed success
        let eng3 := eng2.update_agent_workload decision.next_worker (-1)
        let trec : TaskRecord :=
          { input := input_text, worker_used := decision.next_worker,
            response_time := elapsed, success := success,
            confidence := decision.confidence, strategy := decision.strategy_used }
        .ok ({ error := none,
               response := wres.response.getD "No response from worker",
               worker_used := some decision.next_worker },
             { sup1 with routing_engine := eng3,
                         task_history := sup1.task_history ++ [trec] })
      | .error e =>
        let eng2 := eng1.update_agent_performance decision.next_worker elapsed false
        let eng3 := eng2.update_agent_workload decision.next_worker (-1)
        .ok ({ error := some ("Worker execution error: " ++ e),
               response := "Error executing task with " ++ decision.next_worker,
               worker_used := some decision.next_worker },
             { sup1 with routing_engine := eng3 })

/-- The stored workload of a registered target. -/
def workloadOf (eng : EnhancedRoutingEngine) (id : String) : Option Int :=
  (lookupAgent eng.agent_capabilities id).map (fun a => a.current_workload)

/-- The stored success rate of a registered target. -/
def successRateOf (eng : EnhancedRoutingEngine) (id : String) : Option ℚ :=
  (lookupAgent eng.agent_capabilities id).map (fun a => a.success_rate)

/-- The clamp applied to the workload by update_agent_workload. -/
def workloadClamp (delta : Int) (a : AgentCapability) : AgentCapability :=
  { a with current_workload := max 0 (a.current_workload + delta) }

/-- The record transformation applied by update_agent_performance. -/
def performanceUpdate (rt : ℚ) (s : Bool) (a : AgentCapability) : AgentCapability :=
  { a with
    average_response_time :=
      if a.average_response_time = 0 then rt else a.average_response_time * 0.8 + rt * 0.2,
    success_rate :=
      max 0.1 (min 1 (if s then a.success_rate * 0.9 + 0.1 else a.success_rate * 0.9)) }

/-- A registered sample record with the dataclass defaults. -/
def sampleAgentA : AgentCapability := { agent_id := "alpha", capabilities := ["research"] }

/-- A sample engine with one registered agent and no llm. -/
def sampleEngine : EnhancedRoutingEngine :=
  { llm := none, agent_capabilities := [("alpha", sampleAgentA)] }

/-- A record with non-negative workload but negative capacity. -/
def c10Record : AgentCapability :=
  { agent_id := "neg", capabilities := [], current_workload := 1, max_workload := -1 }

/-- A record with zero capacity. -/
def c10ZeroRecord : AgentCapability :=
  { agent_id := "z", capabilities := [], max_workload := 0 }

/-- A finite sequence of AdjustWorkload calls, applied in order. -/
def applyWorkloadCalls (eng : EnhancedRoutingEngine) (calls : List (String × Int)) :
    EnhancedRoutingEngine :=
  calls.foldl (fun e c => e.update_agent_workload c.1 c.2) eng

/-- A worker whose execution always raises. -/
def c5Worker : WorkerAgent := { name := "alpha", behavior := fun _ => .error "boom" }

/-- A supervisor over that worker, using the workload strategy. -/
def c5Supervisor : EnhancedSupervisorAgent :=
  { name := "sup", workers := [c5Worker], routing_strategy := .workload_based,
    routing_engine := sampleEngine }

/-- A hierarchical team with a coordinator but no teams. -/
def c8EmptyTeam : HierarchicalAgentTeam :=
  { name := "h",
    coordinator := some
      { name := "coordinator", llm := some (fun _ => .reply "ok"),
        teams := [], team_names := [] },
    teams := [], workers := [] }

/-- A supervisor with no workers and no llm, used as an inert team value. -/
def c8Supervisor : SupervisorAgent := { name := "s", workers := [], llm := none }

/-- A coordinator whose separately maintained team-name list is out of step
with its team dict, so its keyword fallback decides a team that is not in
the dict. -/
def c8DesyncCoordinator : TeamCoordinator :=
  { name := "coordinator", llm := some (fun _ => .reply "zz"),
    teams := [("alpha", c8Supervisor)], team_names := ["beta"] }

/-- A team with no coordinator configured. -/
def c8NoCoordinatorTeam : HierarchicalAgentTeam :=
  { name := "h0", coordinator := none, teams := [], workers := [] }

/-- The data-model field ranges of a CapabilityRecord: non-negative workload,
positive capacity, non-negative smoothed response time, a success rate in
[0,1], and a non-negative priority. -/
def ValidRecord (a : AgentCapability) : Prop :=
  0 ≤ a.current_workload ∧ 0 < a.max_workload ∧ 0 ≤ a.average_response_time ∧
  0 ≤ a.success_rate ∧ a.success_rate ≤ 1 ∧ 0 ≤ a.priority

/-- Every candidate is registered with a record in the data-model ranges. -/
def agentsValid (reg : Registry) (agents : List String) : Prop :=
  ∀ id ∈ agents, ∃ a, lookupAgent reg id = some a ∧ ValidRecord a

/-- The confidence carried by a successful routing call. -/
def routeConfidence (r : Except RouteError (RoutingDecision × EnhancedRoutingEngine)) :
    Option ℚ :=
  r.toOption.map (fun p => p.1.confidence)

/-- An engine whose oracle answers with a well-formed json reply carrying
confidence 2; its registered record satisfies every data-model field range. -/
def c7LlmEngine : EnhancedRoutingEngine :=
  { llm := some (fun _ => .parsed "raw" "alpha" 2 "as instructed" []),
    agent_capabilities := [("alpha", sampleAgentA)] }

/-- A registered record inside the data-model field ranges (the data model
bounds every field except the priority, which is only said to be an
integer) whose priority is -1. -/
def c7NegRecord : AgentCapability :=
  { agent_id := "negp", capabilities := [], priority := -1 }

/-- An engine holding only that record. -/
def c7NegEngine : EnhancedRoutingEngine :=
  { llm := none, agent_capabilities := [("negp", c7NegRecord)] }

/-- The target carried by a successful strategy call. -/
def targetOf (r : Except String RoutingDecision) : Option String :=
  r.toOption.map (fun d => d.target)

/-- Counterexample record b: idle (full availability), with the coding
capability, zero success rate and lowest priority. -/
def c6B : AgentCapability :=
  { agent_id := "b", capabilities := ["coding"], current_workload := 0,
    max_workload := 10, average_response_time := 60, success_rate := 0,
    specialization_keywords := [], priority := 0 }

/-- Counterexample record t: saturated workload, slightly better success
rate, higher priority. -/
def c6T : AgentCapability :=
  { agent_id := "t", capabilities := [], current_workload := 10,
    max_workload := 10, average_response_time := 60, success_rate := 0.62,
    specialization_keywords := [], priority := 1 }

/-- The counterexample registry and candidate list. -/
def c6Reg : Registry := [("b", c6B), ("t", c6T)]

/-- The counterexample candidates, both registered. -/
def c6Agents : List String := ["b", "t"]

/-! ## Theorems -/

theorem lookupAgent_setAgent (reg : Registry) (i : String)
    (f : AgentCapability → AgentCapability) (j : String) :
    lookupAgent (setAgent reg i f) j =
      if i = j then (lookupAgent reg j).map f else lookupAgent reg j := by
  induction reg with
  | nil => by_cases h : i = j <;> simp [setAgent, lookupAgent, h]
  | cons hd tl ih =>
    obtain ⟨k, v⟩ := hd
    by_cases hki : k = i
    · subst hki
      rw [show setAgent ((k, v) :: tl) k f = (k, f v) :: tl from by simp [setAgent]]
      by_cases hkj : k = j
      · subst hkj
        simp [lookupAgent]
      · rw [show lookupAgent ((k, f v) :: tl) j = lookupAgent tl j from by
              simp [lookupAgent, hkj],
            if_neg hkj,
            show lookupAgent ((k, v) :: tl) j = lookupAgent tl j from by
              simp [lookupAgent, hkj]]
    · rw [show setAgent ((k, v) :: tl) i f = (k, v) :: setAgent tl i f from by
            simp [setAgent, hki]]
      by_cases hkj : k = j
      · subst hkj
        have hik : ¬ i = k := fun h => hki h.symm
        rw [show lookupAgent ((k, v) :: setAgent tl i f) k = some v from by
              simp [lookupAgent],
            if_neg hik,
            show lookupAgent ((k, v) :: tl) k = some v from by simp [lookupAgent]]
      · rw [show lookupAgent ((k, v) :: setAgent tl i f) j = lookupAgent (setAgent tl i f) j
              from by simp [lookupAgent, hkj],
            ih,
            show lookupAgent ((k, v) :: tl) j = lookupAgent tl j from by
              simp [lookupAgent, hkj]]

theorem lookup_update_workload (eng : EnhancedRoutingEngine) (i : String) (delta : Int)
    (j : String) :
    lookupAgent (eng.update_agent_workload i delta).agent_capabilities j =
      if i = j then (lookupAgent eng.agent_capabilities j).map (workloadClamp delta)
      else lookupAgent eng.agent_capabilities j := by
  unfold EnhancedRoutingEngine.update_agent_workload
  by_cases hreg : (lookupAgent eng.agent_capabilities i).isSome
  · simp only [hreg, if_true]
    rw [lookupAgent_setAgent]
    rfl
  · simp only [hreg, if_false]
    by_cases hij : i = j
    · subst hij
      rw [Option.not_isSome_iff_eq_none] at hreg
      simp [hreg]
    · simp [hij]

theorem lookup_update_performance (eng : EnhancedRoutingEngine) (i : String) (rt : ℚ)
    (s : Bool) (j : String) :
    lookupAgent (eng.update_agent_performance i rt s).agent_capabilities j =
      if i = j then (lookupAgent eng.agent_capabilities j).map (performanceUpdate rt s)
      else lookupAgent eng.agent_capabilities j := by
  unfold EnhancedRoutingEngine.update_agent_performance
  cases hreg : lookupAgent eng.agent_capabilities i with
  | none =>
    by_cases hij : i = j
    · subst hij
      simp [hreg]
    · simp [hreg, hij]
  | some a =>
    simp only [hreg]
    rw [lookupAgent_setAgent]
    rfl

/-- C9: for an id absent from the capability registry, update_agent_workload
and update_agent_performance return normally (the embedding is total,
mirroring the absence of any raise on this path in the source) and leave
the whole engine state unchanged. -/
theorem c9_unknown_id_updates_are_noops (eng : EnhancedRoutingEngine) (id : String)
    (delta : Int) (rt : ℚ) (s : Bool)
    (h : lookupAgent eng.agent_capabilities id = none) :
    eng.update_agent_workload id delta = eng ∧
    eng.update_agent_performance id rt s = eng := by
  constructor
  · unfold EnhancedRoutingEngine.update_agent_workload
    simp [h]
  · unfold EnhancedRoutingEngine.update_agent_performance
    rw [h]

/-- Witness for C9 at a concrete unregistered id. -/
theorem c9_unknown_id_updates_are_noops_witness :
    lookupAgent sampleEngine.agent_capabilities "zeta" = none ∧
    sampleEngine.update_agent_workload "zeta" 5 = sampleEngine ∧
    sampleEngine.update_agent_performance "zeta" 2 true = sampleEngine := by
  have h : lookupAgent sampleEngine.agent_capabilities "zeta" = none := by decide
  have hmain := c9_unknown_id_updates_are_noops sampleEngine "zeta" 5 2 true h
  exact ⟨h, hmain.1, hmain.2⟩

/-- C10 counterexample: a record with current_workload = 1 >= 0 and
max_workload = -1 has availability 2, outside [0,1], refuting the claim
that availability lies in [0,1] for every record with non-negative
workload. -/
theorem c10_availability_counterexample :
    0 ≤ c10Record.current_workload ∧ c10Record.availability = 2 ∧
    ¬ c10Record.availability ≤ 1 := by
  have h : c10Record.availability = 2 := by
    norm_num [c10Record, AgentCapability.availability]
  refine ⟨by decide, h, by rw [h]; norm_num⟩

/-- C10 (amended): availability is total, returning 0 when max_workload = 0
instead of dividing by zero, and lies in [0,1] for every record with
current_workload >= 0 and max_workload >= 0. -/
theorem c10_availability_total_and_bounded (a : AgentCapability) :
    (a.max_workload = 0 → a.availability = 0) ∧
    (0 ≤ a.current_workload → 0 ≤ a.max_workload →
      0 ≤ a.availability ∧ a.availability ≤ 1) := by
  constructor
  · intro h
    simp [AgentCapability.availability, h]
  · intro hw hm
    unfold AgentCapability.availability
    by_cases h : a.max_workload = 0
    · simp [h]
    · rw [if_neg h]
      refine ⟨le_max_left 0 _, ?_⟩
      apply max_le (by norm_num)
      have hmpos : (0:ℚ) < (a.max_workload : ℚ) := by
        have h1 : 0 < a.max_workload := lt_of_le_of_ne hm (Ne.symm h)
        exact_mod_cast h1
      have hwq : (0:ℚ) ≤ (a.current_workload : ℚ) := by exact_mod_cast hw
      have hdiv : 0 ≤ (a.current_workload : ℚ) / (a.max_workload : ℚ) :=
        div_nonneg hwq (le_of_lt hmpos)
      linarith

/-- Witness for the amended C10 at concrete records. -/
theorem c10_availability_total_and_bounded_witness :
    c10ZeroRecord.availability = 0 ∧
    (0 ≤ sampleAgentA.availability ∧ sampleAgentA.availability ≤ 1) :=
  ⟨(c10_availability_total_and_bounded c10ZeroRecord).1 rfl,
   (c10_availability_total_and_bounded sampleAgentA).2 (by decide) (by decide)⟩

/-- C4: a registered record whose workload starts non-negative keeps a
non-negative workload after any finite sequence of update_agent_workload
calls with arbitrary integer deltas: every call clamps at zero. -/
theorem c4_workload_never_negative (calls : List (String × Int))
    (eng : EnhancedRoutingEngine) (id : String) (a : AgentCapability)
    (h0 : lookupAgent eng.agent_capabilities id = some a)
    (hw : 0 ≤ a.current_workload) :
    ∀ a', lookupAgent (applyWorkloadCalls eng calls).agent_capabilities id = some a' →
      0 ≤ a'.current_workload := by
  induction calls generalizing eng a with
  | nil =>
    intro a' h'
    have h'' : lookupAgent eng.agent_capabilities id = some a' := h'
    rw [h0] at h''
    cases h''
    exact hw
  | cons c cs ih =>
    intro a' h'
    have h'' : lookupAgent
        (applyWorkloadCalls (eng.update_agent_workload c.1 c.2) cs).agent_capabilities id =
        some a' := h'
    have hstep := lookup_update_workload eng c.1 c.2 id
    by_cases hc : c.1 = id
    · rw [if_pos hc, h0] at hstep
      exact ih (eng.update_agent_workload c.1 c.2) (workloadClamp c.2 a) hstep
        (le_max_left 0 _) a' h''
    · rw [if_neg hc, h0] at hstep
      exact ih (eng.update_agent_workload c.1 c.2) a hstep hw a' h''

/-- Witness for C4 at a concrete call sequence (a large negative delta then
a positive one). -/
theorem c4_workload_never_negative_witness :
    lookupAgent (applyWorkloadCalls sampleEngine
        [("alpha", -100), ("alpha", 3)]).agent_capabilities "alpha" =
      some { sampleAgentA with current_workload := 3 } ∧
    (0:Int) ≤ ({ sampleAgentA with current_workload := 3 } : AgentCapability).current_workload := by
  have hlook : lookupAgent (applyWorkloadCalls sampleEngine
      [("alpha", -100), ("alpha", 3)]).agent_capabilities "alpha" =
      some { sampleAgentA with current_workload := 3 } := by decide
  exact ⟨hlook,
    c4_workload_never_negative [("alpha", -100), ("alpha", 3)] sampleEngine "alpha"
      sampleAgentA (by decide) (by decide) _ hlook⟩

/-- An exponential success-rate update for a successful call keeps a rate of
1 at 1 after clamping. -/
theorem performanceUpdate_success_of_one (rt : ℚ) (a : AgentCapability)
    (h : a.success_rate = 1) : (performanceUpdate rt true a).success_rate = 1 := by
  simp only [performanceUpdate, h, if_true]
  norm_num

/-- C3: update_agent_performance on a registered id follows the documented
smoothing formulas (response time replaced when the stored average is 0,
else 0.8 avg + 0.2 observed; success rate 0.9 r + 0.1 on success and 0.9 r
on failure, then clamped into [0.1, 1]); in particular three consecutive
successes from rate 1 leave the rate at 1, and one failure from rate 1
gives exactly 0.9. -/
theorem c3_update_performance_spec :
    (∀ (eng : EnhancedRoutingEngine) (id : String) (a : AgentCapability) (rt : ℚ) (s : Bool),
      lookupAgent eng.agent_capabilities id = some a →
      lookupAgent (eng.update_agent_performance id rt s).agent_capabilities id =
        some { a with
          average_response_time :=
            if a.average_response_time = 0 then rt
            else a.average_response_time * 0.8 + rt * 0.2,
          success_rate :=
            max 0.1 (min 1 (if s then a.success_rate * 0.9 + 0.1
                            else a.success_rate * 0.9)) }) ∧
    (∀ (eng : EnhancedRoutingEngine) (id : String) (a : AgentCapability) (t1 t2 t3 : ℚ),
      lookupAgent eng.agent_capabilities id = some a → a.success_rate = 1 →
      successRateOf (((eng.update_agent_performance id t1 true).update_agent_performance
          id t2 true).update_agent_performance id t3 true) id = some 1) ∧
    (∀ (eng : EnhancedRoutingEngine) (id : String) (a : AgentCapability) (t : ℚ),
      lookupAgent eng.agent_capabilities id = some a → a.success_rate = 1 →
      successRateOf (eng.update_agent_performance id t false) id = some 0.9) := by
  refine ⟨?_, ?_, ?_⟩
  · intro eng id a rt s h
    rw [lookup_update_performance, if_pos rfl, h]
    rfl
  · intro eng id a t1 t2 t3 h hsr
    unfold successRateOf
    rw [lookup_update_performance, if_pos rfl,
        lookup_update_performance, if_pos rfl,
        lookup_update_performance, if_pos rfl, h]
    simp only [Option.map_some', Option.some.injEq]
    rw [performanceUpdate_success_of_one _ _
          (performanceUpdate_success_of_one _ _
            (performanceUpdate_success_of_one _ _ hsr))]
  · intro eng id a t h hsr
    unfold successRateOf
    rw [lookup_update_performance, if_pos rfl, h]
    simp only [Option.map_some', Option.some.injEq]
    simp only [performanceUpdate, hsr, if_false, Bool.false_eq_true]
    norm_num

/-- Witness for C3 at a concrete registered record. -/
theorem c3_update_performance_spec_witness :
    lookupAgent (sampleEngine.update_agent_performance "alpha" 2 true).agent_capabilities
        "alpha" =
      some { sampleAgentA with
        average_response_time :=
          if sampleAgentA.average_response_time = 0 then 2
          else sampleAgentA.average_response_time * 0.8 + 2 * 0.2,
        success_rate :=
          max 0.1 (min 1 (if true then sampleAgentA.success_rate * 0.9 + 0.1
                          else sampleAgentA.success_rate * 0.9)) } ∧
    successRateOf (((sampleEngine.update_agent_performance "alpha" 1 true
        ).update_agent_performance "alpha" 2 true
        ).update_agent_performance "alpha" 3 true) "alpha" = some 1 ∧
    successRateOf (sampleEngine.update_agent_performance "alpha" 1 false) "alpha" =
      some 0.9 :=
  ⟨c3_update_performance_spec.1 sampleEngine "alpha" sampleAgentA 2 true (by decide),
   c3_update_performance_spec.2.1 sampleEngine "alpha" sampleAgentA 1 2 3 (by decide)
     (by decide),
   c3_update_performance_spec.2.2 sampleEngine "alpha" sampleAgentA 1 (by decide)
     (by decide)⟩

/-- C1: route_task signals noCandidates on an empty candidate list and
noRegisteredCandidates when no candidate is registered (the registry and
history are untouched in both cases, the error being raised before any
mutation); with at least one registered candidate it returns a decision and
appends exactly that decision to the routing history. -/
theorem c1_route_task_contract (eng : EnhancedRoutingEngine) (task : String)
    (avail : List String) (strat : Option RoutingStrategy) (ctx : Context) :
    (avail = [] → eng.route_task task avail strat ctx = .error .noCandidates) ∧
    (avail ≠ [] → (∀ id ∈ avail, lookupAgent eng.agent_capabilities id = none) →
      eng.route_task task avail strat ctx = .error .noRegisteredCandidates) ∧
    (∀ w ∈ avail, (lookupAgent eng.agent_capabilities w).isSome →
      ∃ d eng', eng.route_task task avail strat ctx = .ok (d, eng') ∧
        eng'.routing_history = eng.routing_history ++ [d] ∧
        eng'.agent_capabilities = eng.agent_capabilities) := by
  refine ⟨?_, ?_, ?_⟩
  · intro h
    subst h
    rfl
  · intro hne hnone
    unfold EnhancedRoutingEngine.route_task
    rw [if_neg (by simpa using hne)]
    have hfilter : avail.filter
        (fun id => (lookupAgent eng.agent_capabilities id).isSome) = [] := by
      rw [List.filter_eq_nil_iff]
      intro id hid
      rw [hnone id hid]
      simp
    rw [if_pos (by simp [hfilter])]
  · intro w hw hreg
    have hne : avail ≠ [] := by
      intro h
      subst h
      exact absurd hw (List.not_mem_nil w)
    have hmem : w ∈ avail.filter
        (fun id => (lookupAgent eng.agent_capabilities id).isSome) :=
      List.mem_filter.2 ⟨hw, hreg⟩
    have hfne : avail.filter
        (fun id => (lookupAgent eng.agent_capabilities id).isSome) ≠ [] := by
      intro h
      rw [h] at hmem
      exact absurd hmem (List.not_mem_nil w)
    unfold EnhancedRoutingEngine.route_task
    rw [if_neg (by simpa using hne), if_neg (by simpa using hfne)]
    cases hdisp : dispatchStrategy eng (strat.getD eng.default_strategy) task
        (avail.filter (fun id => (lookupAgent eng.agent_capabilities id).isSome)) ctx with
    | ok d => exact ⟨d, _, rfl, rfl, rfl⟩
    | error e => exact ⟨_, _, rfl, rfl, rfl⟩

/-- Witness for C1: all three branches at concrete inputs. -/
theorem c1_route_task_contract_witness :
    sampleEngine.route_task "task" [] none {} = .error .noCandidates ∧
    sampleEngine.route_task "task" ["zeta"] none {} = .error .noRegisteredCandidates ∧
    (∃ d eng', sampleEngine.route_task "task" ["alpha"] none {} = .ok (d, eng') ∧
      eng'.routing_history = sampleEngine.routing_history ++ [d] ∧
      eng'.agent_capabilities = sampleEngine.agent_capabilities) := by
  refine ⟨(c1_route_task_contract sampleEngine "task" [] none {}).1 rfl, ?_, ?_⟩
  · refine (c1_route_task_contract sampleEngine "task" ["zeta"] none {}).2.1
      (by simp) ?_
    intro id hid
    have h : id = "zeta" := by simpa using hid
    subst h
    decide
  · exact (c1_route_task_contract sampleEngine "task" ["alpha"] none {}).2.2 "alpha"
      (by simp) (by decide)

/-- C2: when the dispatched strategy raises, route_task does not propagate
the error: it returns a decision with confidence exactly 0.3, a reasoning
recording the original error, and a target drawn from the valid (registered)
candidate list at the current round-robin index, which is then advanced by
one; the registry is unchanged, so repeated failing calls with the same
candidate list produce the same valid list and visit it in cyclic order. -/
theorem c2_route_task_fallback (eng : EnhancedRoutingEngine) (task : String)
    (avail : List String) (strat : Option RoutingStrategy) (ctx : Context) (msg : String)
    (hval : avail.filter (fun id => (lookupAgent eng.agent_capabilities id).isSome) ≠ [])
    (herr : dispatchStrategy eng (strat.getD eng.default_strategy) task
        (avail.filter (fun id => (lookupAgent eng.agent_capabilities id).isSome)) ctx =
      .error msg) :
    ∃ d eng', eng.route_task task avail strat ctx = .ok (d, eng') ∧
      d.confidence = 0.3 ∧
      d.reasoning = "Fallback routing due to error: " ++ msg ∧
      d.target = (avail.filter
          (fun id => (lookupAgent eng.agent_capabilities id).isSome)).getD
          (eng.round_robin_index %
            (avail.filter
              (fun id => (lookupAgent eng.agent_capabilities id).isSome)).length) "" ∧
      d.strategy_used = strat.getD eng.default_strategy ∧
      eng'.round_robin_index = eng.round_robin_index + 1 ∧
      eng'.agent_capabilities = eng.agent_capabilities ∧
      eng'.routing_history = eng.routing_history ++ [d] := by
  have hne : avail ≠ [] := by
    intro h
    subst h
    exact hval rfl
  unfold EnhancedRoutingEngine.route_task
  rw [if_neg (by simpa using hne), if_neg (by simpa using hval), herr]
  exact ⟨_, _, rfl, rfl, rfl, rfl, rfl, rfl, rfl, rfl⟩

/-- Witness for C2: a concrete engine whose llm is absent, routed with the
llm strategy, which therefore raises and triggers the fallback. -/
theorem c2_route_task_fallback_witness :
    ∃ d eng', sampleEngine.route_task "task" ["alpha"] (some .llm_based) {} =
        .ok (d, eng') ∧
      d.confidence = 0.3 ∧
      d.reasoning = "Fallback routing due to error: " ++
        "LLM not available for LLM-based routing" ∧
      d.target = (["alpha"].filter
          (fun id => (lookupAgent sampleEngine.agent_capabilities id).isSome)).getD
          (sampleEngine.round_robin_index %
            (["alpha"].filter
              (fun id =>
                (lookupAgent sampleEngine.agent_capabilities id).isSome)).length) "" ∧
      d.strategy_used = RoutingStrategy.llm_based ∧
      eng'.round_robin_index = sampleEngine.round_robin_index + 1 ∧
      eng'.agent_capabilities = sampleEngine.agent_capabilities ∧
      eng'.routing_history = sampleEngine.routing_history ++ [d] :=
  c2_route_task_fallback sampleEngine "task" ["alpha"] (some .llm_based) {}
    "LLM not available for LLM-based routing" (by decide) rfl

/-- A successful route_task call never mutates the capability registry. -/
theorem route_task_ok_preserves_registry (eng : EnhancedRoutingEngine) (task : String)
    (avail : List String) (strat : Option RoutingStrategy) (ctx : Context)
    (d : RoutingDecision) (eng' : EnhancedRoutingEngine)
    (h : eng.route_task task avail strat ctx = .ok (d, eng')) :
    eng'.agent_capabilities = eng.agent_capabilities := by
  unfold EnhancedRoutingEngine.route_task at h
  dsimp only [] at h
  split at h
  · cases h
  · split at h
    · cases h
    · split at h
      · cases h
        rfl
      · cases h
        rfl

/-- A successful enhanced decide_worker call never mutates the registry of
the owned engine. -/
theorem decide_worker_ok_preserves_registry (sup : EnhancedSupervisorAgent)
    (input : String) (ctx : Context) (strat : Option RoutingStrategy)
    (d : EnhancedSupervisorDecision) (sup1 : EnhancedSupervisorAgent)
    (h : sup.decide_worker input ctx strat = .ok (d, sup1)) :
    sup1.routing_engine.agent_capabilities = sup.routing_engine.agent_capabilities := by
  unfold EnhancedSupervisorAgent.decide_worker at h
  by_cases hempty : sup.workers.isEmpty
  · rw [if_pos hempty] at h
    cases h
  · rw [if_neg hempty] at h
    dsimp only [] at h
    cases hr : sup.routing_engine.route_task input (sup.workers.map (fun w => w.name))
        (some (strat.getD sup.routing_strategy)) ctx with
    | error e =>
      rw [hr] at h
      cases h
    | ok p =>
      obtain ⟨rd, eng'⟩ := p
      rw [hr] at h
      cases h
      exact route_task_ok_preserves_registry _ _ _ _ _ _ _ hr

/-- update_agent_performance never changes a stored workload. -/
theorem workloadOf_update_performance (eng : EnhancedRoutingEngine) (i : String)
    (rt : ℚ) (s : Bool) (id : String) :
    workloadOf (eng.update_agent_performance i rt s) id = workloadOf eng id := by
  unfold workloadOf
  rw [lookup_update_performance]
  by_cases h : i = id
  · rw [if_pos h]
    cases lookupAgent eng.agent_capabilities id <;> rfl
  · rw [if_neg h]

/-- C5: when the enhanced supervisor run dispatches to an existing worker
whose execution raises, the run still returns a structured result carrying
an error field, and the stored workload of the chosen worker is back at its
pre-call value: the increment is undone by the finally-style decrement. -/
theorem c5_supervisor_run_restores_workload (sup : EnhancedSupervisorAgent)
    (input priority complexity : String) (elapsed : ℚ)
    (d : EnhancedSupervisorDecision) (sup1 : EnhancedSupervisorAgent)
    (w : WorkerAgent) (msg : String)
    (hdec : sup.decide_worker input
        { priority := some priority, complexity := some complexity } none =
      .ok (d, sup1))
    (hw : sup1.get_worker d.next_worker = some w)
    (hbeh : w.behavior input = .error msg)
    (hinv : ∀ a, lookupAgent sup.routing_engine.agent_capabilities d.next_worker =
      some a → 0 ≤ a.current_workload) :
    ∃ res sup2, sup.run input priority complexity elapsed = .ok (res, sup2) ∧
      res.error.isSome ∧
      workloadOf sup2.routing_engine d.next_worker =
        workloadOf sup.routing_engine d.next_worker := by
  have hreg1 : sup1.routing_engine.agent_capabilities =
      sup.routing_engine.agent_capabilities :=
    decide_worker_ok_preserves_registry _ _ _ _ _ _ hdec
  unfold EnhancedSupervisorAgent.run
  dsimp only []
  rw [hdec]
  dsimp only []
  rw [hw]
  dsimp only []
  rw [hbeh]
  refine ⟨_, _, rfl, rfl, ?_⟩
  unfold workloadOf
  rw [lookup_update_workload, if_pos rfl, lookup_update_performance, if_pos rfl,
      lookup_update_workload, if_pos rfl, hreg1]
  cases hlook : lookupAgent sup.routing_engine.agent_capabilities d.next_worker with
  | none => rfl
  | some a =>
    have ha := hinv a hlook
    simp only [Option.map_some']
    simp only [workloadClamp, performanceUpdate]
    congr 1
    omega

/-- Witness for C5 at a concrete raising worker. -/
theorem c5_supervisor_run_restores_workload_witness :
    ∃ res sup2, c5Supervisor.run "t" "normal" "medium" 0 = .ok (res, sup2) ∧
      res.error.isSome ∧
      workloadOf sup2.routing_engine "alpha" =
        workloadOf c5Supervisor.routing_engine "alpha" := by
  refine c5_supervisor_run_restores_workload c5Supervisor "t" "normal" "medium" 0
    _ _ _ _ rfl rfl rfl ?_
  intro a h
  have h' : some sampleAgentA = some a := h
  cases h'
  decide

/-- C8 counterexample: on a team with a coordinator but no teams added,
run raises a ValueError instead of returning a structured result, refuting
the claim that run never throws. -/
theorem c8_run_throws_counterexample :
    c8EmptyTeam.run "hello" = .error "No teams available" := rfl

/-- C8 (amended): run raises ValueError when no coordinator is configured or
no teams have been added; otherwise it returns exactly the coordinator run
result with metadata attached, and a coordinator dispatch to an unknown team
is returned as a structured result carrying an error field, not raised. -/
theorem c8_run_error_behaviour (t : HierarchicalAgentTeam) (input : String) :
    (t.coordinator = none → t.run input = .error "No coordinator configured") ∧
    (t.teams = [] → ∀ c, t.coordinator = some c →
      t.run input = .error "No teams available") ∧
    (∀ c, t.coordinator = some c → t.teams ≠ [] →
      t.run input = (c.run input).map (fun r =>
        { base := r, total_teams := t.teams.length,
          total_workers := t.workers.length })) ∧
    (∀ (c : TeamCoordinator) (d : TeamDecision), c.decide_team input = .ok d →
      c.get_team d.next_team = none →
      ∃ r, c.run input = .ok r ∧ r.error.isSome) := by
  refine ⟨?_, ?_, ?_, ?_⟩
  · intro h
    unfold HierarchicalAgentTeam.run
    rw [h]
  · intro hteams c hc
    unfold HierarchicalAgentTeam.run
    rw [hc]
    dsimp only []
    rw [if_pos (by simp [hteams])]
  · intro c hc hne
    unfold HierarchicalAgentTeam.run
    rw [hc]
    dsimp only []
    rw [if_neg (by simpa using hne)]
  · intro c d hdec hteam
    unfold TeamCoordinator.run
    rw [hdec]
    dsimp only []
    rw [hteam]
    exact ⟨_, rfl, rfl⟩

/-- Witness for the amended C8 at concrete states. -/
theorem c8_run_error_behaviour_witness :
    c8NoCoordinatorTeam.run "x" = .error "No coordinator configured" ∧
    c8EmptyTeam.run "x" = .error "No teams available" ∧
    (∃ r, c8DesyncCoordinator.run "x" = .ok r ∧ r.error.isSome) := by
  refine ⟨(c8_run_error_behaviour c8NoCoordinatorTeam "x").1 rfl,
          (c8_run_error_behaviour c8EmptyTeam "x").2.1 rfl _ rfl,
          (c8_run_error_behaviour c8EmptyTeam "x").2.2.2 c8DesyncCoordinator
            { next_team := "beta", reasoning := "zz", task_description := "x" } rfl rfl⟩

theorem mem_firstOccs (l : List String) (z : String) : z ∈ firstOccs l ↔ z ∈ l := by
  induction l with
  | nil => simp [firstOccs]
  | cons x xs ih =>
    simp only [firstOccs, List.mem_cons, List.mem_filter]
    constructor
    · rintro (h | ⟨h, _⟩)
      · exact Or.inl h
      · exact Or.inr (ih.1 h)
    · rintro (h | h)
      · exact Or.inl h
      · by_cases hz : z = x
        · exact Or.inl hz
        · exact Or.inr ⟨ih.2 h, by simpa using hz⟩

theorem argmaxFirst_eq_none {α : Type} (score : α → ℚ) (l : List α) :
    argmaxFirst score l = none ↔ l = [] := by
  cases l with
  | nil => simp [argmaxFirst]
  | cons x xs =>
    simp only [argmaxFirst]
    cases argmaxFirst score xs with
    | none => simp
    | some y =>
      by_cases h : score x < score y <;> simp [h]

theorem argmaxFirst_mem {α : Type} (score : α → ℚ) (l : List α) (x : α)
    (h : argmaxFirst score l = some x) : x ∈ l := by
  induction l generalizing x with
  | nil => cases h
  | cons a as ih =>
    simp only [argmaxFirst] at h
    cases hm : argmaxFirst score as with
    | none =>
      rw [hm] at h
      cases h
      exact List.mem_cons_self _ _
    | some y =>
      rw [hm] at h
      dsimp only [] at h
      by_cases hc : score a < score y
      · rw [if_pos hc] at h
        cases h
        exact List.mem_cons_of_mem _ (ih _ hm)
      · rw [if_neg hc] at h
        cases h
        exact List.mem_cons_self _ _

theorem argmaxFirst_is_max {α : Type} (score : α → ℚ) (l : List α) (x : α)
    (h : argmaxFirst score l = some x) : ∀ y ∈ l, score y ≤ score x := by
  induction l generalizing x with
  | nil => cases h
  | cons a as ih =>
    intro y hy
    simp only [argmaxFirst] at h
    cases hm : argmaxFirst score as with
    | none =>
      rw [hm] at h
      cases h
      rcases List.mem_cons.1 hy with hya | hyas
      · subst hya
        exact le_refl _
      · rw [(argmaxFirst_eq_none score as).1 hm] at hyas
        cases hyas
    | some z =>
      rw [hm] at h
      dsimp only [] at h
      by_cases hc : score a < score z
      · rw [if_pos hc] at h
        cases h
        rcases List.mem_cons.1 hy with hya | hyas
        · subst hya
          exact le_of_lt hc
        · exact ih _ hm y hyas
      · rw [if_neg hc] at h
        cases h
        rcases List.mem_cons.1 hy with hya | hyas
        · subst hya
          exact le_refl _
        · exact le_trans (ih _ hm y hyas) (le_of_not_lt hc)

theorem mem_insDesc {α : Type} (key : α → ℚ) (x : α) (l : List α) (z : α) :
    z ∈ insDesc key x l ↔ z = x ∨ z ∈ l := by
  induction l with
  | nil => simp [insDesc]
  | cons y ys ih =>
    simp only [insDesc]
    by_cases h : key y < key x
    · simp only [if_pos h, List.mem_cons]
    · simp only [if_neg h, List.mem_cons, ih]
      tauto

theorem mem_sortByDesc {α : Type} (key : α → ℚ) (l : List α) (z : α) :
    z ∈ sortByDesc key l ↔ z ∈ l := by
  have haux : ∀ (l acc : List α), z ∈ l.foldl (fun acc x => insDesc key x acc) acc ↔
      z ∈ acc ∨ z ∈ l := by
    intro l
    induction l with
    | nil => simp [List.foldl]
    | cons x xs ih =>
      intro acc
      simp only [List.foldl, ih, mem_insDesc, List.mem_cons]
      tauto
  unfold sortByDesc
  rw [haux]
  simp

/-- Two-element descending sort, unswapped case. -/
theorem sortByDesc_pair {α : Type} (key : α → ℚ) (x y : α) (h : ¬ key x < key y) :
    sortByDesc key [x, y] = [x, y] := by
  have hstep : sortByDesc key [x, y] =
      if key x < key y then [y, x] else x :: insDesc key y [] := rfl
  rw [hstep, if_neg h]
  rfl

/-- Two-element descending sort, swapped case. -/
theorem sortByDesc_pair_swap {α : Type} (key : α → ℚ) (x y : α) (h : key x < key y) :
    sortByDesc key [x, y] = [y, x] := by
  have hstep : sortByDesc key [x, y] =
      if key x < key y then [y, x] else x :: insDesc key y [] := rfl
  rw [hstep, if_pos h]

theorem availability_nonneg (a : AgentCapability) : 0 ≤ a.availability := by
  unfold AgentCapability.availability
  split
  · exact le_refl 0
  · exact le_max_left 0 _

theorem availability_le_one (a : AgentCapability) (hw : 0 ≤ a.current_workload)
    (hm : 0 ≤ a.max_workload) : a.availability ≤ 1 := by
  unfold AgentCapability.availability
  by_cases h : a.max_workload = 0
  · rw [if_pos h]
    norm_num
  · rw [if_neg h]
    apply max_le (by norm_num)
    have hmpos : (0:ℚ) < (a.max_workload : ℚ) := by
      have h1 : 0 < a.max_workload := lt_of_le_of_ne hm (Ne.symm h)
      exact_mod_cast h1
    have hwq : (0:ℚ) ≤ (a.current_workload : ℚ) := by exact_mod_cast hw
    have hdiv : 0 ≤ (a.current_workload : ℚ) / (a.max_workload : ℚ) :=
      div_nonneg hwq (le_of_lt hmpos)
    linarith

theorem performance_score_nonneg (a : AgentCapability) (hsr : 0 ≤ a.success_rate) :
    0 ≤ a.performance_score := by
  unfold AgentCapability.performance_score
  dsimp only []
  have h1 : (0:ℚ) ≤ max 0 (1 - a.average_response_time / 60) := le_max_left 0 _
  have h2 := availability_nonneg a
  have c1 : (0:ℚ) ≤ a.success_rate * 0.5 := by positivity
  have c2 : (0:ℚ) ≤ max 0 (1 - a.average_response_time / 60) * 0.2 := by positivity
  have c3 : (0:ℚ) ≤ a.availability * 0.3 := by positivity
  linarith

theorem performance_score_le_one (a : AgentCapability) (hsr : a.success_rate ≤ 1)
    (hart : 0 ≤ a.average_response_time) (hw : 0 ≤ a.current_workload)
    (hm : 0 ≤ a.max_workload) : a.performance_score ≤ 1 := by
  unfold AgentCapability.performance_score
  dsimp only []
  have h1 : max 0 (1 - a.average_response_time / 60) ≤ 1 := by
    apply max_le (by norm_num)
    have : 0 ≤ a.average_response_time / 60 := by positivity
    linarith
  have h2 := availability_le_one a hw hm
  linarith

theorem getAgentD_of_agentsValid (reg : Registry) (agents : List String)
    (hv : agentsValid reg agents) (id : String) (hid : id ∈ agents) :
    ValidRecord (getAgentD reg id) := by
  obtain ⟨a, ha, hva⟩ := hv id hid
  unfold getAgentD
  rw [ha]
  exact hva

theorem keyword_based_bounds (reg : Registry) (task : String) (agents : List String)
    (d : RoutingDecision) (h : keyword_based_routing reg task agents = .ok d) :
    (0 ≤ d.confidence ∧ d.confidence ≤ 9/10) ∧
    (∀ p ∈ d.alternative_targets, 0 ≤ p.2) := by
  unfold keyword_based_routing at h
  dsimp only [] at h
  cases hm : argmaxFirst
      (fun id => ((keywordScore reg (lowerStr task) id : Nat) : ℚ)) (firstOccs agents) with
  | none =>
    rw [hm] at h
    cases h
  | some best =>
    rw [hm] at h
    dsimp only [] at h
    cases h
    dsimp only []
    refine ⟨⟨?_, ?_⟩, ?_⟩
    · apply le_min
      · norm_num
      · exact div_nonneg (Nat.cast_nonneg _) (Nat.cast_nonneg _)
    · exact le_trans (min_le_left _ _) (by norm_num)
    · intro p hp
      rcases List.mem_map.1 hp with ⟨q, _, hq⟩
      rw [← hq]
      exact Nat.cast_nonneg _

theorem rule_based_bounds (reg : Registry) (task : String) (agents : List String)
    (ctx : Context) (d : RoutingDecision) (h : rule_based_routing reg task agents ctx = .ok d) :
    (0 ≤ d.confidence ∧ d.confidence ≤ 1) ∧ d.alternative_targets = [] := by
  unfold rule_based_routing at h
  dsimp only [] at h
  split at h
  · cases h
    exact ⟨by norm_num, rfl⟩
  · split at h
    · cases h
      exact ⟨by norm_num, rfl⟩
    · split at h
      · cases h
        exact ⟨by norm_num, rfl⟩
      · split at h
        · cases h
        · cases h
          exact ⟨by norm_num, rfl⟩

theorem capability_based_bounds (reg : Registry) (task : String) (agents : List String)
    (d : RoutingDecision)
    (hprio : ∀ id ∈ agents, 0 ≤ (getAgentD reg id).priority)
    (h : capability_based_routing reg task agents = .ok d) :
    (0 ≤ d.confidence ∧ d.confidence ≤ 19/20) ∧ d.alternative_targets = [] := by
  unfold capability_based_routing at h
  dsimp only [] at h
  cases hm : argmaxFirst
      (fun id => ((capabilityScore reg task (extract_task_keywords task) id : Int) : ℚ))
      (firstOccs agents) with
  | none =>
    rw [hm] at h
    cases h
  | some best =>
    rw [hm] at h
    dsimp only [] at h
    have hbest : best ∈ agents := (mem_firstOccs agents best).1 (argmaxFirst_mem _ _ _ hm)
    have hscore : 0 ≤ capabilityScore reg task (extract_task_keywords task) best := by
      unfold capabilityScore
      dsimp only []
      have hp := hprio best hbest
      have h1 : (0:Int) ≤ ((List.filter
          (fun k => ((getAgentD reg best).capabilities.map lowerStr).contains k)
          (extract_task_keywords task)).length : Int) := Int.natCast_nonneg _
      have h2 : (0:Int) ≤ (((getAgentD reg best).specialization_keywords.filter
          (fun s => strContains (lowerStr task) (lowerStr s))).length : Int) :=
        Int.natCast_nonneg _
      omega
    have hq : (0:ℚ) ≤ ((capabilityScore reg task (extract_task_keywords task) best : Int) : ℚ) := by
      exact_mod_cast hscore
    split at h
    · cases h
    · cases h
      dsimp only []
      refine ⟨⟨?_, ?_⟩, rfl⟩
      · apply le_min
        · norm_num
        · exact div_nonneg hq (by linarith)
      · exact le_trans (min_le_left _ _) (by norm_num)

theorem workload_based_bounds (reg : Registry) (agents : List String)
    (d : RoutingDecision) (h : workload_based_routing reg agents = .ok d) :
    (0 ≤ d.confidence ∧
      (agentsValid reg agents → d.confidence ≤ 4/5)) ∧
    (∀ p ∈ d.alternative_targets, 0 ≤ p.2) := by
  unfold workload_based_routing at h
  dsimp only [] at h
  cases hs : sortByDesc (fun p => p.2)
      (agents.map (fun id => (id, (getAgentD reg id).availability))) with
  | nil =>
    rw [hs] at h
    cases h
  | cons hd tl =>
    rw [hs] at h
    obtain ⟨best, avail⟩ := hd
    dsimp only [] at h
    cases h
    have hmem : (best, avail) ∈ agents.map (fun id => (id, (getAgentD reg id).availability)) := by
      rw [← mem_sortByDesc (fun p => p.2), hs]
      exact List.mem_cons_self _ _
    rcases List.mem_map.1 hmem with ⟨id, hid, hpair⟩
    have havail : avail = (getAgentD reg id).availability := by
      have := congrArg Prod.snd hpair
      simpa using this.symm
    refine ⟨⟨?_, ?_⟩, ?_⟩
    · rw [havail]
      have := availability_nonneg (getAgentD reg id)
      positivity
    · intro hv
      obtain ⟨hw, hm, _, _, _, _⟩ := getAgentD_of_agentsValid reg agents hv id hid
      have h1 : (getAgentD reg id).availability ≤ 1 :=
        availability_le_one _ hw (le_of_lt hm)
      rw [havail]
      nlinarith [availability_nonneg (getAgentD reg id)]
    · intro p hp
      have hp1 : p ∈ tl := List.mem_of_mem_take hp
      have hp2 : p ∈ agents.map (fun id => (id, (getAgentD reg id).availability)) := by
        rw [← mem_sortByDesc (fun p => p.2), hs]
        exact List.mem_cons_of_mem _ hp1
      rcases List.mem_map.1 hp2 with ⟨id2, _, hpair2⟩
      have : p.2 = (getAgentD reg id2).availability := by
        rw [← hpair2]
      rw [this]
      exact availability_nonneg _

theorem performance_based_bounds (reg : Registry) (agents : List String)
    (d : RoutingDecision) (hv : agentsValid reg agents)
    (h : performance_based_routing reg agents = .ok d) :
    (0 ≤ d.confidence ∧ d.confidence ≤ 9/10) ∧
    (∀ p ∈ d.alternative_targets, 0 ≤ p.2) := by
  unfold performance_based_routing at h
  dsimp only [] at h
  cases hs : sortByDesc (fun p => p.2)
      (agents.map (fun id => (id, (getAgentD reg id).performance_score))) with
  | nil =>
    rw [hs] at h
    cases h
  | cons hd tl =>
    rw [hs] at h
    obtain ⟨best, perf⟩ := hd
    dsimp only [] at h
    cases h
    have hmem : (best, perf) ∈
        agents.map (fun id => (id, (getAgentD reg id).performance_score)) := by
      rw [← mem_sortByDesc (fun p => p.2), hs]
      exact List.mem_cons_self _ _
    rcases List.mem_map.1 hmem with ⟨id, hid, hpair⟩
    have hperf : perf = (getAgentD reg id).performance_score := by
      have := congrArg Prod.snd hpair
      simpa using this.symm
    obtain ⟨hw, hm, hart, hsr0, hsr1, _⟩ := getAgentD_of_agentsValid reg agents hv id hid
    have h0 : 0 ≤ (getAgentD reg id).performance_score :=
      performance_score_nonneg _ hsr0
    have h1 : (getAgentD reg id).performance_score ≤ 1 :=
      performance_score_le_one _ hsr1 hart hw (le_of_lt hm)
    refine ⟨⟨?_, ?_⟩, ?_⟩
    · rw [hperf]
      positivity
    · rw [hperf]
      nlinarith
    · intro p hp
      have hp1 : p ∈ tl := List.mem_of_mem_take hp
      have hp2 : p ∈ agents.map (fun id => (id, (getAgentD reg id).performance_score)) := by
        rw [← mem_sortByDesc (fun p => p.2), hs]
        exact List.mem_cons_of_mem _ hp1
      rcases List.mem_map.1 hp2 with ⟨id2, hid2, hpair2⟩
      have hps : p.2 = (getAgentD reg id2).performance_score := by
        rw [← hpair2]
      obtain ⟨_, _, _, hs0, _, _⟩ := getAgentD_of_agentsValid reg agents hv id2 hid2
      rw [hps]
      exact performance_score_nonneg _ hs0

theorem hybridContribution_nonneg (id : String) (w : ℚ) (hw : 0 ≤ w)
    (dex : Except String RoutingDecision)
    (hconf : ∀ dec, dex = .ok dec → 0 ≤ dec.confidence)
    (halt : ∀ dec, dex = .ok dec → ∀ p ∈ dec.alternative_targets, 0 ≤ p.2) :
    0 ≤ hybridContribution id w dex := by
  unfold hybridContribution
  cases dex with
  | error e => exact le_refl 0
  | ok dec =>
    dsimp only []
    by_cases ht : dec.target = id
    · rw [if_pos ht]
      exact mul_nonneg (hconf dec rfl) hw
    · rw [if_neg ht]
      cases hf : dec.alternative_targets.find? (fun p => p.1 = id) with
      | none => exact le_refl 0
      | some p =>
        have hp : p ∈ dec.alternative_targets := List.mem_of_find?_eq_some hf
        have h2 := halt dec rfl p hp
        exact mul_nonneg (mul_nonneg (div_nonneg h2 (by norm_num)) hw) (by norm_num)

theorem hybridWeightedScore_nonneg (reg : Registry) (task : String)
    (agents : List String) (id : String) (hv : agentsValid reg agents) :
    0 ≤ hybridWeightedScore reg task agents id := by
  have hprio : ∀ i ∈ agents, 0 ≤ (getAgentD reg i).priority := fun i hi =>
    (getAgentD_of_agentsValid reg agents hv i hi).2.2.2.2.2
  have hcap : 0 ≤ hybridContribution id 0.4 (capability_based_routing reg task agents) := by
    apply hybridContribution_nonneg _ _ (by norm_num)
    · intro dec hdec
      exact ((capability_based_bounds reg task agents dec hprio hdec).1).1
    · intro dec hdec p hp
      rw [(capability_based_bounds reg task agents dec hprio hdec).2] at hp
      cases hp
  have hperf : 0 ≤ hybridContribution id 0.3 (performance_based_routing reg agents) := by
    apply hybridContribution_nonneg _ _ (by norm_num)
    · intro dec hdec
      exact ((performance_based_bounds reg agents dec hv hdec).1).1
    · intro dec hdec
      exact (performance_based_bounds reg agents dec hv hdec).2
  have hwork : 0 ≤ hybridContribution id 0.2 (workload_based_routing reg agents) := by
    apply hybridContribution_nonneg _ _ (by norm_num)
    · intro dec hdec
      exact ((workload_based_bounds reg agents dec hdec).1).1
    · intro dec hdec
      exact (workload_based_bounds reg agents dec hdec).2
  have hkey : 0 ≤ hybridContribution id 0.1 (keyword_based_routing reg task agents) := by
    apply hybridContribution_nonneg _ _ (by norm_num)
    · intro dec hdec
      exact ((keyword_based_bounds reg task agents dec hdec).1).1
    · intro dec hdec
      exact (keyword_based_bounds reg task agents dec hdec).2
  unfold hybridWeightedScore
  linarith

theorem hybrid_based_bounds (reg : Registry) (task : String) (agents : List String)
    (d : RoutingDecision) (hv : agentsValid reg agents)
    (h : hybrid_routing reg task agents = .ok d) :
    (0 ≤ d.confidence ∧ d.confidence ≤ 19/20) ∧ d.alternative_targets = [] := by
  unfold hybrid_routing at h
  dsimp only [] at h
  cases hm : argmaxFirst (hybridWeightedScore reg task agents) (firstOccs agents) with
  | none =>
    rw [hm] at h
    cases h
  | some best =>
    rw [hm] at h
    dsimp only [] at h
    cases h
    dsimp only []
    refine ⟨⟨?_, ?_⟩, rfl⟩
    · apply le_min
      · norm_num
      · exact hybridWeightedScore_nonneg reg task agents best hv
    · exact le_trans (min_le_left _ _) (by norm_num)

theorem dispatch_confidence_bound (eng : EnhancedRoutingEngine)
    (strat : RoutingStrategy) (task : String) (agents : List String) (ctx : Context)
    (d : RoutingDecision) (hv : agentsValid eng.agent_capabilities agents)
    (hstrat : strat ≠ .llm_based)
    (h : dispatchStrategy eng strat task agents ctx = .ok d) :
    0 ≤ d.confidence ∧ d.confidence ≤ 1 := by
  have hprio : ∀ i ∈ agents, 0 ≤ (getAgentD eng.agent_capabilities i).priority :=
    fun i hi => (getAgentD_of_agentsValid _ agents hv i hi).2.2.2.2.2
  cases strat with
  | keyword_based =>
    have hb := keyword_based_bounds _ _ _ _ h
    exact ⟨hb.1.1, by linarith [hb.1.2]⟩
  | llm_based => exact absurd rfl hstrat
  | rule_based => exact (rule_based_bounds _ _ _ _ _ h).1
  | capability_based =>
    have hb := capability_based_bounds _ _ _ _ hprio h
    exact ⟨hb.1.1, by linarith [hb.1.2]⟩
  | workload_based =>
    have hb := workload_based_bounds _ _ _ h
    exact ⟨hb.1.1, by linarith [hb.1.2 hv]⟩
  | performance_based =>
    have hb := performance_based_bounds _ _ _ hv h
    exact ⟨hb.1.1, by linarith [hb.1.2]⟩
  | hybrid =>
    have hb := hybrid_based_bounds _ _ _ _ hv h
    exact ⟨hb.1.1, by linarith [hb.1.2]⟩

/-- C7 counterexample: an llm-strategy routing call returns the parsed
oracle confidence 2 unclamped, and a capability-strategy call over a
registered record with priority -1 returns confidence -1/2; both lie
outside [0,1], refuting the claim for the llm and capability strategies. -/
theorem c7_confidence_counterexample :
    routeConfidence (c7LlmEngine.route_task "task" ["alpha"] (some .llm_based) {}) =
      some 2 ∧
    ¬ ((2:ℚ) ≤ 1) ∧
    routeConfidence (c7NegEngine.route_task "zzz" ["negp"] (some .capability_based) {}) =
      some (-(1/2)) ∧
    ¬ ((0:ℚ) ≤ -(1/2)) := by
  refine ⟨rfl, by norm_num, ?_, by norm_num⟩
  have hdisp : capability_based_routing c7NegEngine.agent_capabilities "zzz" ["negp"] =
      .ok { target := "negp", confidence := -(1/2),
            reasoning := "Best capability match with score -1",
            strategy_used := .capability_based } := by
    unfold capability_based_routing
    dsimp only []
    rw [show argmaxFirst (fun id => ((capabilityScore c7NegEngine.agent_capabilities "zzz"
        (extract_task_keywords "zzz") id : Int) : ℚ)) (firstOccs ["negp"]) = some "negp"
        from rfl]
    dsimp only []
    rw [show capabilityScore c7NegEngine.agent_capabilities "zzz"
        (extract_task_keywords "zzz") "negp" = -1 from by decide]
    rw [if_neg (by norm_num)]
    congr 2
    norm_num
  unfold EnhancedRoutingEngine.route_task
  dsimp only []
  rw [if_neg (by decide), if_neg (by decide)]
  rw [show List.filter
      (fun id => (lookupAgent c7NegEngine.agent_capabilities id).isSome) ["negp"] = ["negp"]
      from rfl]
  rw [show (some RoutingStrategy.capability_based).getD c7NegEngine.default_strategy =
      RoutingStrategy.capability_based from rfl]
  rw [show dispatchStrategy c7NegEngine .capability_based "zzz" ["negp"] {} =
      capability_based_routing c7NegEngine.agent_capabilities "zzz" ["negp"] from rfl]
  rw [hdisp]
  rfl

/-- C7 (amended): for every strategy except the external-oracle (llm) one,
and over engines whose registered records satisfy the data-model field
ranges with a non-negative priority, every successful routing call returns
a confidence in [0,1]; the llm strategy passes the parsed oracle confidence
through unclamped, and a negative priority can push the capability-strategy
confidence below zero (see the counterexample). -/
theorem c7_confidence_in_unit_interval (eng : EnhancedRoutingEngine) (task : String)
    (avail : List String) (strat : Option RoutingStrategy) (ctx : Context)
    (d : RoutingDecision) (eng' : EnhancedRoutingEngine)
    (hvalid : ∀ id a, lookupAgent eng.agent_capabilities id = some a → ValidRecord a)
    (hstrat : strat.getD eng.default_strategy ≠ .llm_based)
    (h : eng.route_task task avail strat ctx = .ok (d, eng')) :
    0 ≤ d.confidence ∧ d.confidence ≤ 1 := by
  unfold EnhancedRoutingEngine.route_task at h
  dsimp only [] at h
  split at h
  · cases h
  · split at h
    · cases h
    · have hv : agentsValid eng.agent_capabilities
          (avail.filter (fun id => (lookupAgent eng.agent_capabilities id).isSome)) := by
        intro id hid
        have h2 := (List.mem_filter.1 hid).2
        obtain ⟨a, ha⟩ := Option.isSome_iff_exists.1 (by simpa using h2)
        exact ⟨a, ha, hvalid id a ha⟩
      cases hd : dispatchStrategy eng (strat.getD eng.default_strategy) task
          (avail.filter (fun id => (lookupAgent eng.agent_capabilities id).isSome)) ctx with
      | ok d0 =>
        rw [hd] at h
        cases h
        exact dispatch_confidence_bound _ _ _ _ _ _ hv hstrat hd
      | error e =>
        rw [hd] at h
        cases h
        dsimp only []
        norm_num

/-- Witness for the amended C7 at a concrete keyword-strategy call. -/
theorem c7_confidence_in_unit_interval_witness :
    ∃ d eng', sampleEngine.route_task "find data" ["alpha"] (some .keyword_based) {} =
        .ok (d, eng') ∧ 0 ≤ d.confidence ∧ d.confidence ≤ 1 := by
  have hvalid : ∀ id a, lookupAgent sampleEngine.agent_capabilities id = some a →
      ValidRecord a := by
    intro id a h
    have hstep : lookupAgent sampleEngine.agent_capabilities id =
        if "alpha" = id then some sampleAgentA else none := rfl
    rw [hstep] at h
    split at h
    · cases h
      refine ⟨by decide, by decide, by decide, by decide, by decide, by decide⟩
    · cases h
  obtain ⟨d, eng', hroute⟩ : ∃ d eng',
      sampleEngine.route_task "find data" ["alpha"] (some .keyword_based) {} =
        .ok (d, eng') := ⟨_, _, rfl⟩
  exact ⟨d, eng', hroute,
    c7_confidence_in_unit_interval _ _ _ _ _ _ _ hvalid (by decide) hroute⟩

theorem c6_availB : c6B.availability = 1 := by
  norm_num [c6B, AgentCapability.availability]

theorem c6_availT : c6T.availability = 0 := by
  norm_num [c6T, AgentCapability.availability]

theorem c6_perfB : c6B.performance_score = 3/10 := by
  norm_num [c6B, AgentCapability.performance_score, AgentCapability.availability]

theorem c6_perfT : c6T.performance_score = 31/100 := by
  norm_num [c6T, AgentCapability.performance_score, AgentCapability.availability]

theorem c6_cap_eval : capability_based_routing c6Reg "code" c6Agents =
    .ok { target := "t", confidence := 1/4,
          reasoning := "Best capability match with score 1",
          strategy_used := .capability_based } := by
  unfold capability_based_routing
  dsimp only []
  rw [show argmaxFirst
      (fun id => ((capabilityScore c6Reg "code" (extract_task_keywords "code") id : ℚ)))
      (firstOccs c6Agents) = some "t" from rfl]
  dsimp only []
  rw [show capabilityScore c6Reg "code" (extract_task_keywords "code") "t" = 1 from by
    decide]
  rw [if_neg (by norm_num)]
  congr 2
  norm_num

theorem c6_perf_eval : performance_based_routing c6Reg c6Agents =
    .ok { target := "t", confidence := 279/1000, reasoning := "Best performance score",
          strategy_used := .performance_based, alternative_targets := [("b", 3/10)] } := by
  unfold performance_based_routing
  dsimp only []
  rw [show (c6Agents.map (fun id => (id, (getAgentD c6Reg id).performance_score))) =
      [("b", c6B.performance_score), ("t", c6T.performance_score)] from rfl]
  rw [sortByDesc_pair_swap _ _ _ (by
    dsimp only []
    rw [c6_perfB, c6_perfT]
    norm_num)]
  dsimp only []
  rw [c6_perfB, c6_perfT]
  congr 2
  norm_num

theorem c6_work_eval : workload_based_routing c6Reg c6Agents =
    .ok { target := "b", confidence := 4/5, reasoning := "Best availability",
          strategy_used := .workload_based, alternative_targets := [("t", 0)] } := by
  unfold workload_based_routing
  dsimp only []
  rw [show (c6Agents.map (fun id => (id, (getAgentD c6Reg id).availability))) =
      [("b", c6B.availability), ("t", c6T.availability)] from rfl]
  rw [sortByDesc_pair _ _ _ (by
    dsimp only []
    rw [c6_availB, c6_availT]
    norm_num)]
  dsimp only []
  rw [c6_availB, c6_availT]
  congr 2
  norm_num

theorem c6_key_eval : keyword_based_routing c6Reg "code" c6Agents =
    .ok { target := "b", confidence := 9/10,
          reasoning := "Keyword matching: 1 points for b",
          strategy_used := .keyword_based, alternative_targets := [("t", 0)] } := by
  have hraw : keyword_based_routing c6Reg "code" c6Agents =
      .ok { target := "b",
            confidence := min 0.9 (((1:Nat):ℚ) / (((max 1 (1+0) : Nat)):ℚ)),
            reasoning := "Keyword matching: 1 points for b",
            strategy_used := .keyword_based,
            alternative_targets := [("t", ((0:Nat):ℚ))] } := rfl
  rw [hraw]
  congr 2
  norm_num

theorem c6_wsB : hybridWeightedScore c6Reg "code" c6Agents "b" = 509/2000 := by
  have h1 : ("t":String) ≠ "b" := by decide
  unfold hybridWeightedScore
  rw [c6_cap_eval, c6_perf_eval, c6_work_eval, c6_key_eval]
  unfold hybridContribution
  norm_num [List.find?, h1]

theorem c6_wsT : hybridWeightedScore c6Reg "code" c6Agents "t" = 1837/10000 := by
  have h2 : ("b":String) ≠ "t" := by decide
  unfold hybridWeightedScore
  rw [c6_cap_eval, c6_perf_eval, c6_work_eval, c6_key_eval]
  unfold hybridContribution
  norm_num [List.find?, h2]

theorem c6_hybrid_eval : hybrid_routing c6Reg "code" c6Agents =
    .ok { target := "b", confidence := 509/2000,
          reasoning := "Hybrid decision combining strategies",
          strategy_used := .hybrid } := by
  unfold hybrid_routing
  dsimp only []
  have hargmax : argmaxFirst (hybridWeightedScore c6Reg "code" c6Agents)
      (firstOccs c6Agents) = some "b" := by
    have hstep : argmaxFirst (hybridWeightedScore c6Reg "code" c6Agents)
        (firstOccs c6Agents) =
        if hybridWeightedScore c6Reg "code" c6Agents "b" <
            hybridWeightedScore c6Reg "code" c6Agents "t" then some "t"
        else some "b" := rfl
    rw [hstep, if_neg (by rw [c6_wsB, c6_wsT]; norm_num)]
  rw [hargmax]
  dsimp only []
  rw [c6_wsB]
  congr 2
  norm_num

/-- C6 counterexample: over two registered candidates, the capability and
performance strategies both choose t, yet the hybrid strategy chooses b
(b collects the workload and keyword wins, outweighing the agreed target),
refuting the claim that agreement of those two sub-strategies determines
the hybrid target. -/
theorem c6_hybrid_disagreement_counterexample :
    (∀ id ∈ c6Agents, (lookupAgent c6Reg id).isSome) ∧
    targetOf (capability_based_routing c6Reg "code" c6Agents) = some "t" ∧
    targetOf (performance_based_routing c6Reg c6Agents) = some "t" ∧
    targetOf (hybrid_routing c6Reg "code" c6Agents) = some "b" ∧
    ("b" : String) ≠ "t" := by
  refine ⟨by decide, ?_, ?_, ?_, by decide⟩
  · rw [targetOf, c6_cap_eval]
    rfl
  · rw [targetOf, c6_perf_eval]
    rfl
  · rw [targetOf, c6_hybrid_eval]
    rfl

/-- C6 (amended): when the capability-based and performance-based
sub-strategies agree on a target t, the hybrid strategy credits t with a
weighted score of at least 0.4 capability-confidence plus 0.3
performance-confidence, and returns a candidate maximizing the weighted
score; the returned target can still differ from t when another candidate
collects larger workload, keyword, or alternative contributions (see the
counterexample). -/
theorem c6_hybrid_agreement_bound (reg : Registry) (task : String)
    (agents : List String) (dc dp : RoutingDecision) (t : String)
    (hdc : capability_based_routing reg task agents = .ok dc)
    (hdp : performance_based_routing reg agents = .ok dp)
    (hct : dc.target = t) (hpt : dp.target = t) :
    0.4 * dc.confidence + 0.3 * dp.confidence ≤
      hybridWeightedScore reg task agents t ∧
    (∀ dh, hybrid_routing reg task agents = .ok dh →
      ∀ id ∈ agents, hybridWeightedScore reg task agents id ≤
        hybridWeightedScore reg task agents dh.target) := by
  constructor
  · have hwork : 0 ≤ hybridContribution t 0.2 (workload_based_routing reg agents) := by
      apply hybridContribution_nonneg _ _ (by norm_num)
      · intro dec hdec
        exact ((workload_based_bounds reg agents dec hdec).1).1
      · intro dec hdec
        exact (workload_based_bounds reg agents dec hdec).2
    have hkey : 0 ≤ hybridContribution t 0.1 (keyword_based_routing reg task agents) := by
      apply hybridContribution_nonneg _ _ (by norm_num)
      · intro dec hdec
        exact ((keyword_based_bounds reg task agents dec hdec).1).1
      · intro dec hdec
        exact (keyword_based_bounds reg task agents dec hdec).2
    have hcapc : hybridContribution t 0.4 (capability_based_routing reg task agents) =
        dc.confidence * 0.4 := by
      rw [hdc]
      unfold hybridContribution
      dsimp only []
      rw [if_pos hct]
    have hperfc : hybridContribution t 0.3 (performance_based_routing reg agents) =
        dp.confidence * 0.3 := by
      rw [hdp]
      unfold hybridContribution
      dsimp only []
      rw [if_pos hpt]
    unfold hybridWeightedScore
    rw [hcapc, hperfc]
    linarith
  · intro dh hh id hid
    unfold hybrid_routing at hh
    dsimp only [] at hh
    cases hm : argmaxFirst (hybridWeightedScore reg task agents) (firstOccs agents) with
    | none =>
      rw [hm] at hh
      cases hh
    | some best =>
      rw [hm] at hh
      dsimp only [] at hh
      cases hh
      exact argmaxFirst_is_max _ _ _ hm id ((mem_firstOccs agents id).2 hid)

/-- Witness for the amended C6 at the concrete agreeing registry. -/
theorem c6_hybrid_agreement_bound_witness :
    0.4 * (1/4 : ℚ) + 0.3 * (279/1000 : ℚ) ≤
      hybridWeightedScore c6Reg "code" c6Agents "t" ∧
    hybridWeightedScore c6Reg "code" c6Agents "t" ≤
      hybridWeightedScore c6Reg "code" c6Agents "b" := by
  have h := c6_hybrid_agreement_bound c6Reg "code" c6Agents _ _ "t" c6_cap_eval
    c6_perf_eval rfl rfl
  exact ⟨h.1, h.2 _ c6_hybrid_eval "t" (by decide)⟩
